import Mathlib

set_option maxHeartbeats 1000000

/-!
Verification development for the escrow lifecycle engine of `src/bot.py`.

The embedding translates the Telegram-facing command handlers of `bot.py`
into pure Lean functions over an explicit store.  The chat-transport layer
(message objects, Markdown rendering, notification delivery) is out of
scope per the specification; each handler is modelled as a function from
its command arguments and the current store to a tagged outcome and an
updated store.  The SQLAlchemy tables `escrows` and `transaction_logs`
become lists of records; the SQLite autoincrement primary key becomes the
`next_id` counter (starting at 1); ORM row mutation plus commit becomes a
pointwise update of the unique record with the given primary key.
Python `decimal.Decimal` amounts (exact decimal arithmetic) are embedded
as an explicit mantissa/scale pair.  `TransactionLog.timestamp`
(a wall-clock default) is omitted: no claim and no engine branch reads it.
-/

/-- The `status` column of `bot.py`'s `Escrow` table, as a closed sum.
The source stores these as the exact strings "INIT", "PAID", "CONFIRMED",
"RECEIVED", "PAYMENT_PROVIDED", "COMPLETED", "DISPUTE"; these are the only
values any handler ever writes. -/
inductive Status where
  | INIT
  | PAID
  | CONFIRMED
  | RECEIVED
  | PAYMENT_PROVIDED
  | COMPLETED
  | DISPUTE
  deriving DecidableEq, Repr

/-- Exact decimal number `mant / 10 ^ scale`, embedding Python
`decimal.Decimal` values produced by `parse_amount_token` (which only
builds decimals from digit strings, hence a natural mantissa). -/
structure Dec where
  mant : Nat
  scale : Nat
  deriving DecidableEq, Repr

/-- Rational value of an embedded decimal (exact, no rounding). -/
def Dec.val (d : Dec) : ℚ := (d.mant : ℚ) / ((10 : ℚ) ^ d.scale)

/-- A Telegram user as seen by the handlers: `from_user.id` (durable
account id) and `from_user.username or ""` (display handle, possibly
empty). -/
structure User where
  id : Nat
  username : String
  deriving DecidableEq, Repr

/-- Row of the `escrows` table in `bot.py`. -/
structure Escrow where
  id : Nat
  group_id : String
  creator_id : String
  buyer_username : String
  buyer_id : String
  seller_username : String
  seller_id : String
  amount : Dec
  currency : String
  status : Status
  seller_payment_info : Option String
  deriving DecidableEq, Repr

/-- Row of the `transaction_logs` table in `bot.py` (timestamp omitted,
see the file header). -/
structure TransactionLog where
  escrow_id : Nat
  group_id : String
  buyer_username : String
  seller_username : String
  amount : Dec
  currency : String
  deriving DecidableEq, Repr

/-- The persistent database: both tables plus the autoincrement counter. -/
structure Store where
  escrows : List Escrow
  logs : List TransactionLog
  next_id : Nat
  deriving DecidableEq, Repr

/-- The empty `escrow.db`: SQLite autoincrement assigns ids from 1. -/
def emptyStore : Store := { escrows := [], logs := [], next_id := 1 }

/-- Tagged outcome of a handler, per the spec's error taxonomy.
`UsageError` stands for the "Usage: ..." / "Invalid ..." replies to
malformed arguments (the spec's `InvalidInput`). -/
inductive Outcome where
  | Success
  | NotFound
  | Forbidden
  | InvalidState (st : Status)
  | UsageError
  deriving DecidableEq, Repr

/-- Membership test `is_admin` from `bot.py`: membership of the account id in the
configured `ADMIN_IDS` list (injected here as a parameter instead of a
module global). -/
def is_admin (admins : List Nat) (uid : Nat) : Prop := uid ∈ admins

instance (admins : List Nat) (uid : Nat) : Decidable (is_admin admins uid) :=
  inferInstanceAs (Decidable (uid ∈ admins))

/-- Unscoped lookup `query(Escrow).filter_by(id=esc_id).first()`
(used by `/status` and `/dispute`). -/
def getById (s : Store) (eid : Nat) : Option Escrow :=
  s.escrows.find? (fun e => e.id == eid)

/-- Conversation-scoped lookup
`query(Escrow).filter_by(id=esc_id, group_id=str(chat.id)).first()`. -/
def getScoped (s : Store) (eid : Nat) (gid : String) : Option Escrow :=
  s.escrows.find? (fun e => e.id == eid && e.group_id == gid)

/-- ORM row mutation + commit: rewrite the record(s) carrying primary key
`eid` with `f`.  Ids are unique in every store the engine builds, so this
touches exactly the row the handler loaded. -/
def updEscrow (l : List Escrow) (eid : Nat) (f : Escrow → Escrow) : List Escrow :=
  l.map (fun e => if e.id = eid then f e else e)

/-- Status of the escrow with primary key `eid`, if any. -/
def statusOf (s : Store) (eid : Nat) : Option Status :=
  (getById s eid).map (fun e => e.status)

/-- Payout info recorded on the escrow with primary key `eid`
(`none` when the escrow is missing or the field is unset). -/
def payoutVal (s : Store) (eid : Nat) : Option String :=
  (getById s eid).bind (fun e => e.seller_payment_info)

/-- Number of `transaction_logs` rows for a given escrow id. -/
def logCount (s : Store) (eid : Nat) : Nat :=
  (s.logs.filter (fun t => t.escrow_id == eid)).length

/-- Python `str.lower()` as used in the handle comparisons
(`caller_un != (esc.buyer_username or "").lower()` etc.): lower-case every
character. -/
def pyLower (t : String) : String :=
  String.mk (t.data.map Char.toLower)

/-- Python `str.strip()` (drop leading and trailing whitespace). -/
def pyStrip (t : String) : String :=
  String.mk (((t.data.dropWhile Char.isWhitespace).reverse.dropWhile Char.isWhitespace).reverse)

/-- Python `" ".join(ts)`. -/
def pyJoinSpace : List String → String
  | [] => ""
  | [t] => t
  | t :: ts => t ++ " " ++ pyJoinSpace ts

/-- Python `s.lstrip("@")` as used on the buyer/seller mention arguments. -/
def lstripAt (t : String) : String :=
  String.mk (t.data.dropWhile (fun c => c = '@'))

/-- Digit run to a natural number (the digits are already validated). -/
def digitsToNat (ds : List Char) : Nat :=
  ds.foldl (fun n c => n * 10 + (c.toNat - 48)) 0

/-- Parse a leading `[0-9]+(\.[0-9]+)?` as an exact decimal, returning the
unconsumed remainder.  This is the number part of the regex in
`parse_amount_token`. -/
def parseNumber (cs : List Char) : Option (Dec × List Char) :=
  let intPart := cs.takeWhile Char.isDigit
  let rest := cs.dropWhile Char.isDigit
  if intPart = [] then none
  else
    match rest with
    | '.' :: rest2 =>
      let frac := rest2.takeWhile Char.isDigit
      let rest3 := rest2.dropWhile Char.isDigit
      if frac = [] then none
      else some (⟨digitsToNat (intPart ++ frac), frac.length⟩, rest3)
    | _ => some (⟨digitsToNat intPart, 0⟩, rest)

/-- Amount parsing `parse_amount_token` from `bot.py`: strips the token; a leading `$`
means USD with the rest parsed by `Decimal`; otherwise the token must
match `^([0-9]+(?:\.[0-9]+)?)(?:\s*([A-Za-z]+))?$` and the currency is the
upper-cased letter group (empty when absent).  The `$` branch is embedded
for plain decimal literals `[0-9]+(\.[0-9]+)?`, the grammar every valid
amount in the guide uses; Python's `Decimal` additionally accepts forms
like exponents, which no claim exercises. -/
def parse_amount_token (token : String) : Option (Dec × String) :=
  let t := (pyStrip token).data
  match t with
  | '$' :: rest =>
    match parseNumber rest with
    | some (d, []) => some (d, "USD")
    | _ => none
  | _ =>
    match parseNumber t with
    | some (d, rest) =>
      let rest2 := rest.dropWhile Char.isWhitespace
      if rest2 = [] then some (d, "")
      else if rest2.all Char.isAlpha then some (d, (String.mk rest2).toUpper)
      else none
    | none => none

/-- Core of `escrow_cmd`: persist a new `Escrow` row.  Mirrors the
constructor call in `bot.py` exactly: `buyer_id` is the *creator's*
account id (`str(msg.from_user.id)`), `seller_id` is the empty string,
status starts at `INIT`, payout info unset.  Returns the assigned id. -/
def newEscrow (gid : String) (creator : User) (buyer_h seller_h : String)
    (amount : Dec) (currency : String) (eid : Nat) : Escrow :=
  { id := eid
    group_id := gid
    creator_id := toString creator.id
    buyer_username := buyer_h
    buyer_id := toString creator.id
    seller_username := seller_h
    seller_id := ""
    amount := amount
    currency := currency
    status := Status.INIT
    seller_payment_info := none }

def escrow_create (gid : String) (creator : User) (buyer_h seller_h : String)
    (amount : Dec) (currency : String) (s : Store) : Nat × Store :=
  (s.next_id,
    { s with
        escrows := s.escrows ++ [newEscrow gid creator buyer_h seller_h amount currency s.next_id],
        next_id := s.next_id + 1 })

/-- Handler `/escrow @buyer @seller <amount>`: argument handling of `escrow_cmd`.
The handles are `lstrip("@")`-ed, the amount token is
`" ".join(args[2:]).strip()` fed to `parse_amount_token`. -/
def escrow_cmd (gid : String) (creator : User) (args : List String) (s : Store) :
    Outcome × Store :=
  match args with
  | b :: sl :: a1 :: arest =>
    match parse_amount_token (pyStrip (pyJoinSpace (a1 :: arest))) with
    | none => (Outcome.UsageError, s)
    | some (amount, currency) =>
      (Outcome.Success, (escrow_create gid creator (lstripAt b) (lstripAt sl) amount currency s).2)
  | _ => (Outcome.UsageError, s)

/-- Handler `/paid <escrow_id>` (`paid_cmd` in `bot.py`): scoped lookup, then the
buyer-or-admin check (buyer matched by handle, case-insensitive), then the
`INIT` check; on success set status `PAID` and append one
`TransactionLog` row. -/
def paid_cmd (admins : List Nat) (gid : String) (caller : User) (eid : Nat) (s : Store) :
    Outcome × Store :=
  match getScoped s eid gid with
  | none => (Outcome.NotFound, s)
  | some esc =>
    if pyLower caller.username ≠ pyLower esc.buyer_username ∧ ¬ is_admin admins caller.id then
      (Outcome.Forbidden, s)
    else if esc.status ≠ Status.INIT then
      (Outcome.InvalidState esc.status, s)
    else
      let txn : TransactionLog :=
        { escrow_id := esc.id
          group_id := esc.group_id
          buyer_username := esc.buyer_username
          seller_username := esc.seller_username
          amount := esc.amount
          currency := esc.currency }
      (Outcome.Success,
        { s with
            escrows := updEscrow s.escrows esc.id (fun e => { e with status := Status.PAID })
            logs := s.logs ++ [txn] })

/-- Handler `/confirm <escrow_id>` (`confirm_cmd` in `bot.py`): the admin check
comes *before* the lookup; then the scoped lookup, then the `PAID` check;
on success set status `CONFIRMED`.  (The handler's group-chat-type guard
is transport-layer routing and is outside the engine model.) -/
def confirm_cmd (admins : List Nat) (gid : String) (caller : User) (eid : Nat) (s : Store) :
    Outcome × Store :=
  if ¬ is_admin admins caller.id then
    (Outcome.Forbidden, s)
  else
    match getScoped s eid gid with
    | none => (Outcome.NotFound, s)
    | some esc =>
      if esc.status ≠ Status.PAID then
        (Outcome.InvalidState esc.status, s)
      else
        (Outcome.Success,
          { s with escrows := updEscrow s.escrows esc.id (fun e => { e with status := Status.CONFIRMED }) })

/-- Handler `/received <escrow_id>` (`received_cmd` in `bot.py`): scoped lookup,
buyer-or-admin check (by handle, case-insensitive), `CONFIRMED` check; on
success set status `RECEIVED`. -/
def received_cmd (admins : List Nat) (gid : String) (caller : User) (eid : Nat) (s : Store) :
    Outcome × Store :=
  match getScoped s eid gid with
  | none => (Outcome.NotFound, s)
  | some esc =>
    if pyLower caller.username ≠ pyLower esc.buyer_username ∧ ¬ is_admin admins caller.id then
      (Outcome.Forbidden, s)
    else if esc.status ≠ Status.CONFIRMED then
      (Outcome.InvalidState esc.status, s)
    else
      (Outcome.Success,
        { s with escrows := updEscrow s.escrows esc.id (fun e => { e with status := Status.RECEIVED }) })

/-- Handler `/payment <escrow_id> <address_or_info>` (`payment_cmd` in `bot.py`):
requires at least one info token (`len(args) < 2` is a usage error), the
info string is `" ".join(args[1:]).strip()`; scoped lookup, seller-only
check (by handle, case-insensitive — no admin bypass), `RECEIVED` check;
on success persist the info and set status `PAYMENT_PROVIDED`.
`infoTokens` is `args[1:]` as split by the transport layer. -/
def payment_cmd (gid : String) (caller : User) (eid : Nat) (infoTokens : List String)
    (s : Store) : Outcome × Store :=
  if infoTokens = [] then
    (Outcome.UsageError, s)
  else
    let info := pyStrip (pyJoinSpace infoTokens)
    match getScoped s eid gid with
    | none => (Outcome.NotFound, s)
    | some esc =>
      if pyLower caller.username ≠ pyLower esc.seller_username then
        (Outcome.Forbidden, s)
      else if esc.status ≠ Status.RECEIVED then
        (Outcome.InvalidState esc.status, s)
      else
        (Outcome.Success,
          { s with
              escrows := updEscrow s.escrows esc.id
                (fun e => { e with seller_payment_info := some info, status := Status.PAYMENT_PROVIDED }) })

/-- Handler `/completed <escrow_id>` (`completed_cmd` in `bot.py`): admin check
*before* the lookup; then the scoped lookup, then the disjunctive
`PAYMENT_PROVIDED`-or-`RECEIVED` check; on success set `COMPLETED`. -/
def completed_cmd (admins : List Nat) (gid : String) (caller : User) (eid : Nat) (s : Store) :
    Outcome × Store :=
  if ¬ is_admin admins caller.id then
    (Outcome.Forbidden, s)
  else
    match getScoped s eid gid with
    | none => (Outcome.NotFound, s)
    | some esc =>
      if esc.status ≠ Status.PAYMENT_PROVIDED ∧ esc.status ≠ Status.RECEIVED then
        (Outcome.InvalidState esc.status, s)
      else
        (Outcome.Success,
          { s with escrows := updEscrow s.escrows esc.id (fun e => { e with status := Status.COMPLETED }) })

/-- Handler `/status <escrow_id>` (`status_cmd` in `bot.py`): unscoped read-only
lookup returning the full record. -/
def status_cmd (eid : Nat) (s : Store) : Option Escrow :=
  getById s eid

/-- Handler `/dispute <escrow_id>` (`dispute_cmd` in `bot.py`): *unscoped* lookup
by id alone, no actor check, no status check; unconditionally sets status
`DISPUTE`. -/
def dispute_cmd (eid : Nat) (s : Store) : Outcome × Store :=
  match getById s eid with
  | none => (Outcome.NotFound, s)
  | some esc =>
    (Outcome.Success,
      { s with escrows := updEscrow s.escrows esc.id (fun e => { e with status := Status.DISPUTE }) })

/-- One inbound engine invocation, as resolved by the transport layer.
`createOp` carries an already-parsed amount (the spec places token
parsing with the transport; `escrow_cmd` above additionally embeds the
parsing for the round-trip claim). -/
inductive Op where
  | createOp (gid : String) (creator : User) (buyer_h seller_h : String) (amount : Dec) (currency : String)
  | paidOp (gid : String) (caller : User) (eid : Nat)
  | confirmOp (gid : String) (caller : User) (eid : Nat)
  | receivedOp (gid : String) (caller : User) (eid : Nat)
  | paymentOp (gid : String) (caller : User) (eid : Nat) (infoTokens : List String)
  | completedOp (gid : String) (caller : User) (eid : Nat)
  | disputeOp (eid : Nat)
  | statusOp (eid : Nat)
  deriving Repr

/-- Dispatch one operation against the store (the per-update handler
table in `main()`). -/
def applyOp (admins : List Nat) (op : Op) (s : Store) : Outcome × Store :=
  match op with
  | Op.createOp gid creator bh sh a c => (Outcome.Success, (escrow_create gid creator bh sh a c s).2)
  | Op.paidOp gid caller eid => paid_cmd admins gid caller eid s
  | Op.confirmOp gid caller eid => confirm_cmd admins gid caller eid s
  | Op.receivedOp gid caller eid => received_cmd admins gid caller eid s
  | Op.paymentOp gid caller eid toks => payment_cmd gid caller eid toks s
  | Op.completedOp gid caller eid => completed_cmd admins gid caller eid s
  | Op.disputeOp eid => dispute_cmd eid s
  | Op.statusOp _ => (Outcome.Success, s)

/-- Store after one operation. -/
def stepOp (admins : List Nat) (s : Store) (op : Op) : Store :=
  (applyOp admins op s).2

/-- Store after a whole history of operations, starting from the fresh
database.  The bot dispatches updates one at a time (no `await` separates
an operation's lookup from its commits), so a history is a list. -/
def runOps (admins : List Nat) (ops : List Op) : Store :=
  ops.foldl (stepOp admins) emptyStore

/-- The linearly ordered states at or after `PAID` (the `DISPUTE` escape
hatch is not on the linear path). -/
def paidPlus (st : Status) : Prop :=
  st = Status.PAID ∨ st = Status.CONFIRMED ∨ st = Status.RECEIVED ∨
    st = Status.PAYMENT_PROVIDED ∨ st = Status.COMPLETED

instance (st : Status) : Decidable (paidPlus st) := by
  unfold paidPlus; infer_instance

/-- The escrow with id `eid` was in a `paidPlus` state at some point of
the history (including its end). -/
def everPaidPlus (admins : List Nat) (ops : List Op) (eid : Nat) : Prop :=
  ∃ n, ∃ st, statusOf (runOps admins (ops.take n)) eid = some st ∧ paidPlus st

/-- Invariants every store built by the engine satisfies: ids are below
the autoincrement counter and unique; every log row points at an existing
escrow; an escrow still in `INIT` has no log rows; payout info is only
set on escrows at or past `PAYMENT_PROVIDED` (or disputed after that). -/
def StoreInv (s : Store) : Prop :=
  (∀ e ∈ s.escrows, e.id < s.next_id)
  ∧ (s.escrows.map (fun e => e.id)).Nodup
  ∧ (∀ t ∈ s.logs, ∃ e ∈ s.escrows, e.id = t.escrow_id)
  ∧ (∀ e ∈ s.escrows, e.status = Status.INIT → logCount s e.id = 0)
  ∧ (∀ e ∈ s.escrows, e.seller_payment_info ≠ none →
      (e.status = Status.PAYMENT_PROVIDED ∨ e.status = Status.COMPLETED ∨ e.status = Status.DISPUTE))

/-! ### Basic lookup and update lemmas -/

theorem getById_spec {s : Store} {eid : Nat} {esc : Escrow}
    (h : getById s eid = some esc) : esc ∈ s.escrows ∧ esc.id = eid := by
  refine ⟨List.mem_of_find?_eq_some h, ?_⟩
  have := List.find?_some h
  simpa using this

theorem getScoped_spec {s : Store} {eid : Nat} {gid : String} {esc : Escrow}
    (h : getScoped s eid gid = some esc) :
    esc ∈ s.escrows ∧ esc.id = eid ∧ esc.group_id = gid := by
  refine ⟨List.mem_of_find?_eq_some h, ?_⟩
  have := List.find?_some h
  simpa using this

theorem eq_of_mem_of_id_eq {l : List Escrow}
    (hnd : (l.map (fun e => e.id)).Nodup)
    {x y : Escrow} (hx : x ∈ l) (hy : y ∈ l) (h : x.id = y.id) : x = y :=
  List.inj_on_of_nodup_map hnd hx hy h

theorem getById_of_mem {s : Store}
    (hnd : (s.escrows.map (fun e => e.id)).Nodup)
    {esc : Escrow} (hmem : esc ∈ s.escrows) :
    getById s esc.id = some esc := by
  have hsome : (s.escrows.find? (fun e => e.id == esc.id)).isSome := by
    rw [List.find?_isSome]
    exact ⟨esc, hmem, by simp⟩
  obtain ⟨e', he'⟩ := Option.isSome_iff_exists.mp hsome
  have hmem' : e' ∈ s.escrows := List.mem_of_find?_eq_some he'
  have hid : e'.id = esc.id := by simpa using List.find?_some he'
  have : e' = esc := eq_of_mem_of_id_eq hnd hmem' hmem hid
  rw [getById, he', this]

theorem getById_of_getScoped {s : Store}
    (hnd : (s.escrows.map (fun e => e.id)).Nodup)
    {eid : Nat} {gid : String} {esc : Escrow}
    (h : getScoped s eid gid = some esc) : getById s eid = some esc := by
  obtain ⟨hmem, hid, _⟩ := getScoped_spec h
  have := getById_of_mem hnd hmem
  rwa [hid] at this

theorem find?_updEscrow (l : List Escrow) (tid : Nat) (f : Escrow → Escrow)
    (hf : ∀ e, (f e).id = e.id) (eid : Nat) :
    List.find? (fun e => e.id == eid) (updEscrow l tid f)
      = Option.map (fun e => if e.id = tid then f e else e)
          (List.find? (fun e => e.id == eid) l) := by
  unfold updEscrow
  rw [List.find?_map]
  have hp : ((fun e => e.id == eid) ∘ fun e => if e.id = tid then f e else e)
      = (fun e => e.id == eid) := by
    funext e
    by_cases h : e.id = tid <;> simp [h, hf]
  rw [hp]

theorem map_id_updEscrow (l : List Escrow) (tid : Nat) (f : Escrow → Escrow)
    (hf : ∀ e, (f e).id = e.id) :
    (updEscrow l tid f).map (fun e => e.id) = l.map (fun e => e.id) := by
  unfold updEscrow
  rw [List.map_map]
  congr 1
  funext e
  by_cases h : e.id = tid <;> simp [h, hf]

theorem mem_updEscrow {l : List Escrow} {tid : Nat} {f : Escrow → Escrow}
    {e' : Escrow} (h : e' ∈ updEscrow l tid f) :
    ∃ e ∈ l, e' = if e.id = tid then f e else e := by
  unfold updEscrow at h
  obtain ⟨e, hmem, heq⟩ := List.mem_map.mp h
  exact ⟨e, hmem, heq.symm⟩

theorem updEscrow_mem {l : List Escrow} {tid : Nat} {f : Escrow → Escrow}
    {e : Escrow} (h : e ∈ l) :
    (if e.id = tid then f e else e) ∈ updEscrow l tid f := by
  unfold updEscrow
  exact List.mem_map.mpr ⟨e, h, rfl⟩

theorem length_filter_append {α : Type} (p : α → Bool) (l : List α) (t : α) :
    ((l ++ [t]).filter p).length
      = (l.filter p).length + (if p t then 1 else 0) := by
  rw [List.filter_append]
  by_cases h : p t <;> simp [h]

/-! ### Branch characterizations of the handlers -/

/-- Authorization condition of `/paid` and `/received`: designated buyer
by handle (case-insensitive) or admin. -/
def buyerAuth (admins : List Nat) (caller : User) (esc : Escrow) : Prop :=
  pyLower caller.username = pyLower esc.buyer_username ∨ is_admin admins caller.id

instance (admins : List Nat) (caller : User) (esc : Escrow) :
    Decidable (buyerAuth admins caller esc) := by
  unfold buyerAuth; infer_instance

theorem paid_cmd_not_found {admins : List Nat} {gid : String} {caller : User}
    {eid : Nat} {s : Store} (h : getScoped s eid gid = none) :
    paid_cmd admins gid caller eid s = (Outcome.NotFound, s) := by
  unfold paid_cmd
  rw [h]

theorem paid_cmd_forbidden {admins : List Nat} {gid : String} {caller : User}
    {eid : Nat} {s : Store} {esc : Escrow} (h : getScoped s eid gid = some esc)
    (hauth : ¬ buyerAuth admins caller esc) :
    paid_cmd admins gid caller eid s = (Outcome.Forbidden, s) := by
  have hc : pyLower caller.username ≠ pyLower esc.buyer_username ∧ ¬ is_admin admins caller.id := by
    unfold buyerAuth at hauth
    push_neg at hauth
    exact hauth
  unfold paid_cmd
  simp only [h]
  rw [if_pos hc]

theorem paid_cmd_invalid {admins : List Nat} {gid : String} {caller : User}
    {eid : Nat} {s : Store} {esc : Escrow} (h : getScoped s eid gid = some esc)
    (hauth : buyerAuth admins caller esc) (hst : esc.status ≠ Status.INIT) :
    paid_cmd admins gid caller eid s = (Outcome.InvalidState esc.status, s) := by
  have hc : ¬ (pyLower caller.username ≠ pyLower esc.buyer_username ∧ ¬ is_admin admins caller.id) := by
    unfold buyerAuth at hauth
    tauto
  unfold paid_cmd
  simp only [h]
  rw [if_neg hc, if_pos hst]

theorem paid_cmd_success {admins : List Nat} {gid : String} {caller : User}
    {eid : Nat} {s : Store} {esc : Escrow} (h : getScoped s eid gid = some esc)
    (hauth : buyerAuth admins caller esc) (hst : esc.status = Status.INIT) :
    paid_cmd admins gid caller eid s =
      (Outcome.Success,
        { s with
            escrows := updEscrow s.escrows esc.id (fun e => { e with status := Status.PAID })
            logs := s.logs ++ [{ escrow_id := esc.id, group_id := esc.group_id,
                                 buyer_username := esc.buyer_username,
                                 seller_username := esc.seller_username,
                                 amount := esc.amount, currency := esc.currency }] }) := by
  have hc : ¬ (pyLower caller.username ≠ pyLower esc.buyer_username ∧ ¬ is_admin admins caller.id) := by
    unfold buyerAuth at hauth
    tauto
  unfold paid_cmd
  simp only [h]
  rw [if_neg hc, if_neg (not_not_intro hst)]

theorem confirm_cmd_forbidden {admins : List Nat} {gid : String} {caller : User}
    {eid : Nat} {s : Store} (h : ¬ is_admin admins caller.id) :
    confirm_cmd admins gid caller eid s = (Outcome.Forbidden, s) := by
  unfold confirm_cmd
  rw [if_pos h]

theorem confirm_cmd_not_found {admins : List Nat} {gid : String} {caller : User}
    {eid : Nat} {s : Store} (ha : is_admin admins caller.id)
    (h : getScoped s eid gid = none) :
    confirm_cmd admins gid caller eid s = (Outcome.NotFound, s) := by
  unfold confirm_cmd
  rw [if_neg (not_not_intro ha), h]

theorem confirm_cmd_invalid {admins : List Nat} {gid : String} {caller : User}
    {eid : Nat} {s : Store} {esc : Escrow} (ha : is_admin admins caller.id)
    (h : getScoped s eid gid = some esc) (hst : esc.status ≠ Status.PAID) :
    confirm_cmd admins gid caller eid s = (Outcome.InvalidState esc.status, s) := by
  unfold confirm_cmd
  rw [if_neg (not_not_intro ha)]
  simp only [h]
  rw [if_pos hst]

theorem confirm_cmd_success {admins : List Nat} {gid : String} {caller : User}
    {eid : Nat} {s : Store} {esc : Escrow} (ha : is_admin admins caller.id)
    (h : getScoped s eid gid = some esc) (hst : esc.status = Status.PAID) :
    confirm_cmd admins gid caller eid s =
      (Outcome.Success,
        { s with escrows := updEscrow s.escrows esc.id (fun e => { e with status := Status.CONFIRMED }) }) := by
  unfold confirm_cmd
  rw [if_neg (not_not_intro ha)]
  simp only [h]
  rw [if_neg (not_not_intro hst)]

theorem received_cmd_not_found {admins : List Nat} {gid : String} {caller : User}
    {eid : Nat} {s : Store} (h : getScoped s eid gid = none) :
    received_cmd admins gid caller eid s = (Outcome.NotFound, s) := by
  unfold received_cmd
  rw [h]

theorem received_cmd_forbidden {admins : List Nat} {gid : String} {caller : User}
    {eid : Nat} {s : Store} {esc : Escrow} (h : getScoped s eid gid = some esc)
    (hauth : ¬ buyerAuth admins caller esc) :
    received_cmd admins gid caller eid s = (Outcome.Forbidden, s) := by
  have hc : pyLower caller.username ≠ pyLower esc.buyer_username ∧ ¬ is_admin admins caller.id := by
    unfold buyerAuth at hauth
    push_neg at hauth
    exact hauth
  unfold received_cmd
  simp only [h]
  rw [if_pos hc]

theorem received_cmd_invalid {admins : List Nat} {gid : String} {caller : User}
    {eid : Nat} {s : Store} {esc : Escrow} (h : getScoped s eid gid = some esc)
    (hauth : buyerAuth admins caller esc) (hst : esc.status ≠ Status.CONFIRMED) :
    received_cmd admins gid caller eid s = (Outcome.InvalidState esc.status, s) := by
  have hc : ¬ (pyLower caller.username ≠ pyLower esc.buyer_username ∧ ¬ is_admin admins caller.id) := by
    unfold buyerAuth at hauth
    tauto
  unfold received_cmd
  simp only [h]
  rw [if_neg hc, if_pos hst]

theorem received_cmd_success {admins : List Nat} {gid : String} {caller : User}
    {eid : Nat} {s : Store} {esc : Escrow} (h : getScoped s eid gid = some esc)
    (hauth : buyerAuth admins caller esc) (hst : esc.status = Status.CONFIRMED) :
    received_cmd admins gid caller eid s =
      (Outcome.Success,
        { s with escrows := updEscrow s.escrows esc.id (fun e => { e with status := Status.RECEIVED }) }) := by
  have hc : ¬ (pyLower caller.username ≠ pyLower esc.buyer_username ∧ ¬ is_admin admins caller.id) := by
    unfold buyerAuth at hauth
    tauto
  unfold received_cmd
  simp only [h]
  rw [if_neg hc, if_neg (not_not_intro hst)]

theorem payment_cmd_usage {gid : String} {caller : User} {eid : Nat} {s : Store}
    (h : ([] : List String) = []) :
    payment_cmd gid caller eid [] s = (Outcome.UsageError, s) := by
  unfold payment_cmd
  rw [if_pos h]

theorem payment_cmd_not_found {gid : String} {caller : User} {eid : Nat}
    {toks : List String} {s : Store} (ht : toks ≠ [])
    (h : getScoped s eid gid = none) :
    payment_cmd gid caller eid toks s = (Outcome.NotFound, s) := by
  unfold payment_cmd
  rw [if_neg ht]
  simp only [h]

theorem payment_cmd_forbidden {gid : String} {caller : User} {eid : Nat}
    {toks : List String} {s : Store} {esc : Escrow} (ht : toks ≠ [])
    (h : getScoped s eid gid = some esc)
    (hauth : pyLower caller.username ≠ pyLower esc.seller_username) :
    payment_cmd gid caller eid toks s = (Outcome.Forbidden, s) := by
  unfold payment_cmd
  rw [if_neg ht]
  simp only [h]
  rw [if_pos hauth]

theorem payment_cmd_invalid {gid : String} {caller : User} {eid : Nat}
    {toks : List String} {s : Store} {esc : Escrow} (ht : toks ≠ [])
    (h : getScoped s eid gid = some esc)
    (hauth : pyLower caller.username = pyLower esc.seller_username)
    (hst : esc.status ≠ Status.RECEIVED) :
    payment_cmd gid caller eid toks s = (Outcome.InvalidState esc.status, s) := by
  unfold payment_cmd
  rw [if_neg ht]
  simp only [h]
  rw [if_neg (not_not_intro hauth), if_pos hst]

theorem payment_cmd_success {gid : String} {caller : User} {eid : Nat}
    {toks : List String} {s : Store} {esc : Escrow} (ht : toks ≠ [])
    (h : getScoped s eid gid = some esc)
    (hauth : pyLower caller.username = pyLower esc.seller_username)
    (hst : esc.status = Status.RECEIVED) :
    payment_cmd gid caller eid toks s =
      (Outcome.Success,
        { s with
            escrows := updEscrow s.escrows esc.id
              (fun e => { e with
                            seller_payment_info := some (pyStrip (pyJoinSpace toks)),
                            status := Status.PAYMENT_PROVIDED }) }) := by
  unfold payment_cmd
  rw [if_neg ht]
  simp only [h]
  rw [if_neg (not_not_intro hauth), if_neg (not_not_intro hst)]

theorem completed_cmd_forbidden {admins : List Nat} {gid : String} {caller : User}
    {eid : Nat} {s : Store} (h : ¬ is_admin admins caller.id) :
    completed_cmd admins gid caller eid s = (Outcome.Forbidden, s) := by
  unfold completed_cmd
  rw [if_pos h]

theorem completed_cmd_not_found {admins : List Nat} {gid : String} {caller : User}
    {eid : Nat} {s : Store} (ha : is_admin admins caller.id)
    (h : getScoped s eid gid = none) :
    completed_cmd admins gid caller eid s = (Outcome.NotFound, s) := by
  unfold completed_cmd
  rw [if_neg (not_not_intro ha), h]

theorem completed_cmd_invalid {admins : List Nat} {gid : String} {caller : User}
    {eid : Nat} {s : Store} {esc : Escrow} (ha : is_admin admins caller.id)
    (h : getScoped s eid gid = some esc)
    (hst : esc.status ≠ Status.PAYMENT_PROVIDED ∧ esc.status ≠ Status.RECEIVED) :
    completed_cmd admins gid caller eid s = (Outcome.InvalidState esc.status, s) := by
  unfold completed_cmd
  rw [if_neg (not_not_intro ha)]
  simp only [h]
  rw [if_pos hst]

theorem completed_cmd_success {admins : List Nat} {gid : String} {caller : User}
    {eid : Nat} {s : Store} {esc : Escrow} (ha : is_admin admins caller.id)
    (h : getScoped s eid gid = some esc)
    (hst : esc.status = Status.PAYMENT_PROVIDED ∨ esc.status = Status.RECEIVED) :
    completed_cmd admins gid caller eid s =
      (Outcome.Success,
        { s with escrows := updEscrow s.escrows esc.id (fun e => { e with status := Status.COMPLETED }) }) := by
  have hc : ¬ (esc.status ≠ Status.PAYMENT_PROVIDED ∧ esc.status ≠ Status.RECEIVED) := by
    tauto
  unfold completed_cmd
  rw [if_neg (not_not_intro ha)]
  simp only [h]
  rw [if_neg hc]

theorem dispute_cmd_not_found {eid : Nat} {s : Store} (h : getById s eid = none) :
    dispute_cmd eid s = (Outcome.NotFound, s) := by
  unfold dispute_cmd
  simp only [h]

theorem dispute_cmd_success {eid : Nat} {s : Store} {esc : Escrow}
    (h : getById s eid = some esc) :
    dispute_cmd eid s =
      (Outcome.Success,
        { s with escrows := updEscrow s.escrows esc.id (fun e => { e with status := Status.DISPUTE }) }) := by
  unfold dispute_cmd
  rw [h]

/-! ### Store invariant preservation -/

theorem ids_lt_updEscrow {l : List Escrow} {tid : Nat} {f : Escrow → Escrow} {n : Nat}
    (hf : ∀ e, (f e).id = e.id) (h : ∀ e ∈ l, e.id < n) :
    ∀ e' ∈ updEscrow l tid f, e'.id < n := by
  intro e' he'
  obtain ⟨e, hmem, heq⟩ := mem_updEscrow he'
  rw [heq]
  by_cases hc : e.id = tid
  · rw [if_pos hc, hf]
    exact h e hmem
  · rw [if_neg hc]
    exact h e hmem

theorem logCorr_updEscrow {l : List Escrow} {tid : Nat} {f : Escrow → Escrow}
    {lg : List TransactionLog} (hf : ∀ e, (f e).id = e.id)
    (h : ∀ t ∈ lg, ∃ e ∈ l, e.id = t.escrow_id) :
    ∀ t ∈ lg, ∃ e' ∈ updEscrow l tid f, e'.id = t.escrow_id := by
  intro t ht
  obtain ⟨e, hmem, hid⟩ := h t ht
  refine ⟨if e.id = tid then f e else e, updEscrow_mem hmem, ?_⟩
  by_cases hc : e.id = tid
  · rw [if_pos hc, hf]
    exact hid
  · rw [if_neg hc]
    exact hid

theorem logCount_zero_iff {s : Store} {eid : Nat} :
    logCount s eid = 0 ↔ ∀ t ∈ s.logs, t.escrow_id ≠ eid := by
  unfold logCount
  rw [List.length_eq_zero, List.filter_eq_nil_iff]
  constructor
  · intro h t ht
    have := h t ht
    simpa using this
  · intro h t ht
    simpa using h t ht

theorem storeInv_status_only {s : Store} (hinv : StoreInv s) {esc : Escrow}
    (hmem : esc ∈ s.escrows) {st' : Status} (hni : st' ≠ Status.INIT)
    (hpay : esc.seller_payment_info = none ∨ st' = Status.PAYMENT_PROVIDED ∨
      st' = Status.COMPLETED ∨ st' = Status.DISPUTE) :
    StoreInv { s with
      escrows := updEscrow s.escrows esc.id (fun e => { e with status := st' }) } := by
  obtain ⟨h1, h2, h3, h4, h5⟩ := hinv
  have hf : ∀ e : Escrow, ({ e with status := st' } : Escrow).id = e.id := fun e => rfl
  refine ⟨ids_lt_updEscrow hf h1, ?_, logCorr_updEscrow hf h3, ?_, ?_⟩
  · show (List.map _ (updEscrow s.escrows esc.id _)).Nodup
    rw [map_id_updEscrow _ _ _ hf]
    exact h2
  · intro e' he' hst'
    obtain ⟨e, hmem', heq⟩ := mem_updEscrow he'
    by_cases hc : e.id = esc.id
    · rw [heq, if_pos hc] at hst'
      exact absurd hst' hni
    · rw [heq, if_neg hc]
      show logCount s e.id = 0
      rw [heq, if_neg hc] at hst'
      exact h4 e hmem' hst'
  · intro e' he' hsp
    obtain ⟨e, hmem', heq⟩ := mem_updEscrow he'
    by_cases hc : e.id = esc.id
    · have he : e = esc := eq_of_mem_of_id_eq h2 hmem' hmem hc
      rw [heq, if_pos hc, he] at hsp ⊢
      rcases hpay with hnone | h' | h' | h'
      · exact absurd hnone (by simpa using hsp)
      all_goals simp [h']
    · rw [heq, if_neg hc] at hsp ⊢
      exact h5 e hmem' hsp

theorem storeInv_paid {s : Store} (hinv : StoreInv s) {esc : Escrow}
    (hmem : esc ∈ s.escrows) (hst : esc.status = Status.INIT) {txn : TransactionLog}
    (htxn : txn.escrow_id = esc.id) :
    StoreInv { s with
      escrows := updEscrow s.escrows esc.id (fun e => { e with status := Status.PAID }),
      logs := s.logs ++ [txn] } := by
  obtain ⟨h1, h2, h3, h4, h5⟩ := hinv
  have hf : ∀ e : Escrow, ({ e with status := Status.PAID } : Escrow).id = e.id := fun e => rfl
  refine ⟨ids_lt_updEscrow hf h1, ?_, ?_, ?_, ?_⟩
  · show (List.map _ (updEscrow s.escrows esc.id _)).Nodup
    rw [map_id_updEscrow _ _ _ hf]
    exact h2
  · intro t ht
    rcases List.mem_append.mp ht with ht' | ht'
    · exact logCorr_updEscrow hf h3 t ht'
    · have : t = txn := by simpa using ht'
      subst this
      refine ⟨if esc.id = esc.id then { esc with status := Status.PAID } else esc,
        updEscrow_mem hmem, ?_⟩
      rw [if_pos rfl, htxn]
  · intro e' he' hst'
    obtain ⟨e, hmem', heq⟩ := mem_updEscrow he'
    by_cases hc : e.id = esc.id
    · rw [heq, if_pos hc] at hst'
      exact absurd hst' (by simp)
    · rw [heq, if_neg hc] at hst' ⊢
      have h0 : logCount s e.id = 0 := h4 e hmem' hst'
      show ((s.logs ++ [txn]).filter (fun t => t.escrow_id == e.id)).length = 0
      rw [List.filter_append]
      have : (List.filter (fun t => t.escrow_id == e.id) [txn]).length = 0 := by
        have : txn.escrow_id ≠ e.id := by
          rw [htxn]
          intro hx
          exact hc hx.symm
        simp [this]
      rw [List.length_append, this, Nat.add_zero]
      exact h0
  · intro e' he' hsp
    obtain ⟨e, hmem', heq⟩ := mem_updEscrow he'
    by_cases hc : e.id = esc.id
    · have he : e = esc := eq_of_mem_of_id_eq h2 hmem' hmem hc
      rw [heq, if_pos hc, he] at hsp
      have : esc.seller_payment_info = none := by
        by_contra hne
        have := h5 esc hmem (by simpa using hne)
        rw [hst] at this
        rcases this with h' | h' | h' <;> exact Status.noConfusion h'
      exact absurd this (by simpa using hsp)
    · rw [heq, if_neg hc] at hsp ⊢
      exact h5 e hmem' hsp

theorem storeInv_payment {s : Store} (hinv : StoreInv s) {esc : Escrow}
    (hmem : esc ∈ s.escrows) (info : String) :
    StoreInv { s with
      escrows := updEscrow s.escrows esc.id
        (fun e => { e with seller_payment_info := some info, status := Status.PAYMENT_PROVIDED }) } := by
  obtain ⟨h1, h2, h3, h4, h5⟩ := hinv
  have hf : ∀ e : Escrow,
      ({ e with seller_payment_info := some info, status := Status.PAYMENT_PROVIDED } : Escrow).id = e.id :=
    fun e => rfl
  refine ⟨ids_lt_updEscrow hf h1, ?_, logCorr_updEscrow hf h3, ?_, ?_⟩
  · show (List.map _ (updEscrow s.escrows esc.id _)).Nodup
    rw [map_id_updEscrow _ _ _ hf]
    exact h2
  · intro e' he' hst'
    obtain ⟨e, hmem', heq⟩ := mem_updEscrow he'
    by_cases hc : e.id = esc.id
    · rw [heq, if_pos hc] at hst'
      exact absurd hst' (by simp)
    · rw [heq, if_neg hc] at hst' ⊢
      exact h4 e hmem' hst'
  · intro e' he' hsp
    obtain ⟨e, hmem', heq⟩ := mem_updEscrow he'
    by_cases hc : e.id = esc.id
    · rw [heq, if_pos hc]
      left
      rfl
    · rw [heq, if_neg hc] at hsp ⊢
      exact h5 e hmem' hsp

theorem storeInv_create {s : Store} (hinv : StoreInv s) (gid : String) (creator : User)
    (bh sh : String) (a : Dec) (c : String) :
    StoreInv (escrow_create gid creator bh sh a c s).2 := by
  obtain ⟨h1, h2, h3, h4, h5⟩ := hinv
  unfold escrow_create
  refine ⟨?_, ?_, ?_, ?_, ?_⟩
  · intro e' he'
    rcases List.mem_append.mp he' with h' | h'
    · exact Nat.lt_succ_of_lt (h1 e' h')
    · have hx := List.mem_singleton.mp h'
      rw [hx]
      exact Nat.lt_succ_self _
  · show ((s.escrows ++ [newEscrow gid creator bh sh a c s.next_id]).map (fun e => e.id)).Nodup
    rw [List.map_append]
    rw [List.nodup_append]
    refine ⟨h2, List.nodup_singleton _, ?_⟩
    intro x hx hx'
    have hxn : x = s.next_id := by simpa using hx'
    obtain ⟨e, hmem, hid⟩ := List.mem_map.mp hx
    have := h1 e hmem
    rw [hid, hxn] at this
    exact Nat.lt_irrefl _ this
  · intro t ht
    obtain ⟨e, hmem, hid⟩ := h3 t ht
    exact ⟨e, List.mem_append_left _ hmem, hid⟩
  · intro e' he' hst'
    rcases List.mem_append.mp he' with h' | h'
    · exact h4 e' h' hst'
    · have he : e'.id = s.next_id := by
        have hx := List.mem_singleton.mp h'
        rw [hx]
        rfl
      show logCount s e'.id = 0
      rw [logCount_zero_iff]
      intro t ht hx
      obtain ⟨e, hmem, hid⟩ := h3 t ht
      have := h1 e hmem
      rw [hid, hx, he] at this
      exact Nat.lt_irrefl _ this
  · intro e' he' hsp
    rcases List.mem_append.mp he' with h' | h'
    · exact h5 e' h' hsp
    · have hx := List.mem_singleton.mp h'
      rw [hx] at hsp
      exact absurd (show (newEscrow gid creator bh sh a c s.next_id).seller_payment_info = none from rfl) hsp

theorem storeInv_empty : StoreInv emptyStore := by
  refine ⟨?_, ?_, ?_, ?_, ?_⟩ <;> simp [emptyStore, logCount]

/-! ### Effect of one operation on a single escrow id -/

theorem getById_of_updEscrow {s s' : Store} {tid : Nat} {f : Escrow → Escrow}
    (hf : ∀ e, (f e).id = e.id)
    (h : s'.escrows = updEscrow s.escrows tid f) (eid : Nat) :
    getById s' eid = (getById s eid).map (fun e => if e.id = tid then f e else e) := by
  unfold getById
  rw [h]
  exact find?_updEscrow s.escrows tid f hf eid

theorem getById_of_updEscrow_self {s s' : Store} {tid : Nat} {f : Escrow → Escrow}
    (hf : ∀ e, (f e).id = e.id)
    (h : s'.escrows = updEscrow s.escrows tid f) {esc : Escrow}
    (hq : getById s tid = some esc) :
    getById s' tid = some (f esc) := by
  rw [getById_of_updEscrow hf h tid, hq]
  have : esc.id = tid := (getById_spec hq).2
  simp [this]

theorem getById_of_updEscrow_ne {s s' : Store} {tid : Nat} {f : Escrow → Escrow}
    (hf : ∀ e, (f e).id = e.id)
    (h : s'.escrows = updEscrow s.escrows tid f) {eid : Nat} (hne : eid ≠ tid) :
    getById s' eid = getById s eid := by
  rw [getById_of_updEscrow hf h eid]
  cases hq : getById s eid with
  | none => rfl
  | some e =>
    have he : e.id = eid := (getById_spec hq).2
    have hnt : ¬ e.id = tid := by
      rw [he]
      exact hne
    simp [hnt]

theorem statusOf_congr {s s' : Store} {eid : Nat} (h : getById s' eid = getById s eid) :
    statusOf s' eid = statusOf s eid := by
  unfold statusOf
  rw [h]

theorem payoutVal_congr {s s' : Store} {eid : Nat} (h : getById s' eid = getById s eid) :
    payoutVal s' eid = payoutVal s eid := by
  unfold payoutVal
  rw [h]

theorem logCount_of_logs_eq {s s' : Store} (h : s'.logs = s.logs) (eid : Nat) :
    logCount s' eid = logCount s eid := by
  unfold logCount
  rw [h]

theorem logCount_of_logs_append {s s' : Store} {t : TransactionLog}
    (h : s'.logs = s.logs ++ [t]) (eid : Nat) :
    logCount s' eid = logCount s eid + (if t.escrow_id = eid then 1 else 0) := by
  unfold logCount
  rw [h, List.filter_append, List.length_append]
  by_cases hc : t.escrow_id = eid <;> simp [hc]

/-- What one dispatched operation can do to the escrow with id `eid`:
leave it untouched; create it fresh in `INIT`; advance it along exactly
one edge of the lifecycle table (`/paid` also appending exactly one log
row, `/payment` also writing the payout info for the first time); or
(dispute only) force it to `DISPUTE` from any state. -/
def StepView (op : Op) (s s' : Store) (eid : Nat) : Prop :=
  (statusOf s' eid = statusOf s eid ∧ logCount s' eid = logCount s eid
    ∧ payoutVal s' eid = payoutVal s eid)
  ∨ ((∃ gid creator bh sh a c, op = Op.createOp gid creator bh sh a c)
      ∧ statusOf s eid = none ∧ statusOf s' eid = some Status.INIT
      ∧ logCount s' eid = logCount s eid ∧ payoutVal s eid = none ∧ payoutVal s' eid = none)
  ∨ ((∃ gid caller, op = Op.paidOp gid caller eid)
      ∧ statusOf s eid = some Status.INIT ∧ statusOf s' eid = some Status.PAID
      ∧ logCount s' eid = logCount s eid + 1 ∧ payoutVal s' eid = payoutVal s eid)
  ∨ ((∃ gid caller, op = Op.confirmOp gid caller eid)
      ∧ statusOf s eid = some Status.PAID ∧ statusOf s' eid = some Status.CONFIRMED
      ∧ logCount s' eid = logCount s eid ∧ payoutVal s' eid = payoutVal s eid)
  ∨ ((∃ gid caller, op = Op.receivedOp gid caller eid)
      ∧ statusOf s eid = some Status.CONFIRMED ∧ statusOf s' eid = some Status.RECEIVED
      ∧ logCount s' eid = logCount s eid ∧ payoutVal s' eid = payoutVal s eid)
  ∨ ((∃ gid caller toks, op = Op.paymentOp gid caller eid toks
        ∧ payoutVal s' eid = some (pyStrip (pyJoinSpace toks)))
      ∧ statusOf s eid = some Status.RECEIVED ∧ statusOf s' eid = some Status.PAYMENT_PROVIDED
      ∧ logCount s' eid = logCount s eid ∧ payoutVal s eid = none)
  ∨ ((∃ gid caller, op = Op.completedOp gid caller eid)
      ∧ (statusOf s eid = some Status.RECEIVED ∨ statusOf s eid = some Status.PAYMENT_PROVIDED)
      ∧ statusOf s' eid = some Status.COMPLETED
      ∧ logCount s' eid = logCount s eid ∧ payoutVal s' eid = payoutVal s eid)
  ∨ (op = Op.disputeOp eid
      ∧ (∃ st, statusOf s eid = some st) ∧ statusOf s' eid = some Status.DISPUTE
      ∧ logCount s' eid = logCount s eid ∧ payoutVal s' eid = payoutVal s eid)

theorem stepView_refl (op : Op) (s : Store) (eid : Nat) : StepView op s s eid :=
  Or.inl ⟨rfl, rfl, rfl⟩

theorem step_master_of_eq {admins : List Nat} {op : Op} {s : Store}
    (h : stepOp admins s op = s) (hinv : StoreInv s) :
    StoreInv (stepOp admins s op) ∧ s.next_id ≤ (stepOp admins s op).next_id
      ∧ ∀ eid, StepView op s (stepOp admins s op) eid := by
  rw [h]
  exact ⟨hinv, Nat.le_refl _, fun eid => stepView_refl op s eid⟩

theorem step_master (admins : List Nat) (op : Op) (s : Store) (hinv : StoreInv s) :
    StoreInv (stepOp admins s op) ∧ s.next_id ≤ (stepOp admins s op).next_id
      ∧ ∀ eid, StepView op s (stepOp admins s op) eid := by
  have hnd : (s.escrows.map (fun e => e.id)).Nodup := hinv.2.1
  have h5 := hinv.2.2.2.2
  cases op with
  | createOp gid creator bh sh a c =>
    refine ⟨storeInv_create hinv gid creator bh sh a c, Nat.le_succ _, ?_⟩
    intro eid
    cases hq : getById s eid with
    | some e =>
      left
      have hq' : s.escrows.find? (fun e => e.id == eid) = some e := hq
      have hgb : getById (stepOp admins s (Op.createOp gid creator bh sh a c)) eid
          = getById s eid := by
        show (s.escrows ++ [newEscrow gid creator bh sh a c s.next_id]).find?
          (fun e => e.id == eid) = getById s eid
        rw [List.find?_append, hq', hq]
        rfl
      exact ⟨statusOf_congr hgb, logCount_of_logs_eq rfl eid, payoutVal_congr hgb⟩
    | none =>
      have hq' : s.escrows.find? (fun e => e.id == eid) = none := hq
      by_cases hn : eid = s.next_id
      · right; left
        have hgb : getById (stepOp admins s (Op.createOp gid creator bh sh a c)) eid
            = some (newEscrow gid creator bh sh a c s.next_id) := by
          show (s.escrows ++ [newEscrow gid creator bh sh a c s.next_id]).find?
            (fun e => e.id == eid) = _
          rw [List.find?_append, hq']
          show ([newEscrow gid creator bh sh a c s.next_id].find? (fun e => e.id == eid)) = _
          have hb : ((newEscrow gid creator bh sh a c s.next_id).id == eid) = true := by
            rw [beq_iff_eq]
            exact hn.symm
          simp [List.find?, hb]
        refine ⟨⟨gid, creator, bh, sh, a, c, rfl⟩, ?_, ?_, logCount_of_logs_eq rfl _, ?_, ?_⟩
        · unfold statusOf
          rw [hq]
          rfl
        · unfold statusOf
          rw [hgb]
          rfl
        · unfold payoutVal
          rw [hq]
          rfl
        · unfold payoutVal
          rw [hgb]
          rfl
      · left
        have hb : ((newEscrow gid creator bh sh a c s.next_id).id == eid) = false := by
          rw [beq_eq_false_iff_ne]
          exact fun h => hn (h.symm)
        have hgb : getById (stepOp admins s (Op.createOp gid creator bh sh a c)) eid
            = getById s eid := by
          show (s.escrows ++ [newEscrow gid creator bh sh a c s.next_id]).find?
            (fun e => e.id == eid) = getById s eid
          rw [List.find?_append, hq']
          show ([newEscrow gid creator bh sh a c s.next_id].find? (fun e => e.id == eid))
            = getById s eid
          unfold getById
          rw [hq']
          simp [List.find?, hb]
        exact ⟨statusOf_congr hgb, logCount_of_logs_eq rfl eid, payoutVal_congr hgb⟩
  | paidOp gid caller tid =>
    rcases hq : getScoped s tid gid with _ | esc
    · exact step_master_of_eq
        (by show (paid_cmd admins gid caller tid s).2 = s; rw [paid_cmd_not_found hq]) hinv
    · by_cases hauth : buyerAuth admins caller esc
      · by_cases hst : esc.status = Status.INIT
        · obtain ⟨hmem, hid, hgid⟩ := getScoped_spec hq
          have hfid : ∀ e : Escrow, ({ e with status := Status.PAID } : Escrow).id = e.id :=
            fun e => rfl
          have hs' : stepOp admins s (Op.paidOp gid caller tid)
              = { s with
                    escrows := updEscrow s.escrows esc.id (fun e => { e with status := Status.PAID })
                    logs := s.logs ++ [{ escrow_id := esc.id, group_id := esc.group_id,
                                         buyer_username := esc.buyer_username,
                                         seller_username := esc.seller_username,
                                         amount := esc.amount, currency := esc.currency }] } := by
            show (paid_cmd admins gid caller tid s).2 = _
            rw [paid_cmd_success hq hauth hst]
          have hlogs : (stepOp admins s (Op.paidOp gid caller tid)).logs
              = s.logs ++ [{ escrow_id := esc.id, group_id := esc.group_id,
                             buyer_username := esc.buyer_username,
                             seller_username := esc.seller_username,
                             amount := esc.amount, currency := esc.currency }] := by
            rw [hs']
          have hesc : (stepOp admins s (Op.paidOp gid caller tid)).escrows
              = updEscrow s.escrows esc.id (fun e => { e with status := Status.PAID }) := by
            rw [hs']
          refine ⟨?_, ?_, ?_⟩
          · rw [hs']
            exact storeInv_paid hinv hmem hst rfl
          · rw [hs']
          · intro eid
            by_cases heq : eid = esc.id
            · rw [heq]
              right; right; left
              have hgb0 : getById s esc.id = some esc := getById_of_mem hnd hmem
              have hgb : getById (stepOp admins s (Op.paidOp gid caller tid)) esc.id
                  = some ({ esc with status := Status.PAID }) :=
                getById_of_updEscrow_self hfid hesc hgb0
              refine ⟨⟨gid, caller, by rw [hid]⟩, ?_, ?_, ?_, ?_⟩
              · unfold statusOf
                rw [hgb0]
                show some esc.status = _
                rw [hst]
              · unfold statusOf
                rw [hgb]
                rfl
              · rw [logCount_of_logs_append hlogs esc.id]
                simp
              · unfold payoutVal
                rw [hgb, hgb0]
                rfl
            · left
              have hgb : getById (stepOp admins s (Op.paidOp gid caller tid)) eid
                  = getById s eid := getById_of_updEscrow_ne hfid hesc heq
              refine ⟨statusOf_congr hgb, ?_, payoutVal_congr hgb⟩
              have hne2 : ¬ (esc.id = eid) := fun h => heq h.symm
              rw [logCount_of_logs_append hlogs eid]
              simp [hne2]
        · exact step_master_of_eq
            (by show (paid_cmd admins gid caller tid s).2 = s; rw [paid_cmd_invalid hq hauth hst]) hinv
      · exact step_master_of_eq
          (by show (paid_cmd admins gid caller tid s).2 = s; rw [paid_cmd_forbidden hq hauth]) hinv
  | confirmOp gid caller tid =>
    by_cases ha : is_admin admins caller.id
    · rcases hq : getScoped s tid gid with _ | esc
      · exact step_master_of_eq
          (by show (confirm_cmd admins gid caller tid s).2 = s; rw [confirm_cmd_not_found ha hq]) hinv
      · by_cases hst : esc.status = Status.PAID
        · obtain ⟨hmem, hid, hgid⟩ := getScoped_spec hq
          have hfid : ∀ e : Escrow, ({ e with status := Status.CONFIRMED } : Escrow).id = e.id :=
            fun e => rfl
          have hs' : stepOp admins s (Op.confirmOp gid caller tid)
              = { s with
                    escrows := updEscrow s.escrows esc.id
                      (fun e => { e with status := Status.CONFIRMED }) } := by
            show (confirm_cmd admins gid caller tid s).2 = _
            rw [confirm_cmd_success ha hq hst]
          have hlogs : (stepOp admins s (Op.confirmOp gid caller tid)).logs = s.logs := by
            rw [hs']
          have hesc : (stepOp admins s (Op.confirmOp gid caller tid)).escrows
              = updEscrow s.escrows esc.id (fun e => { e with status := Status.CONFIRMED }) := by
            rw [hs']
          have hpnone : esc.seller_payment_info = none := by
            by_contra hne
            have := h5 esc hmem hne
            rw [hst] at this
            rcases this with h' | h' | h' <;> exact Status.noConfusion h'
          refine ⟨?_, ?_, ?_⟩
          · rw [hs']
            exact storeInv_status_only hinv hmem (by decide) (Or.inl hpnone)
          · rw [hs']
          · intro eid
            by_cases heq : eid = esc.id
            · rw [heq]
              right; right; right; left
              have hgb0 : getById s esc.id = some esc := getById_of_mem hnd hmem
              have hgb : getById (stepOp admins s (Op.confirmOp gid caller tid)) esc.id
                  = some ({ esc with status := Status.CONFIRMED }) :=
                getById_of_updEscrow_self hfid hesc hgb0
              refine ⟨⟨gid, caller, by rw [hid]⟩, ?_, ?_, logCount_of_logs_eq hlogs esc.id, ?_⟩
              · unfold statusOf
                rw [hgb0]
                show some esc.status = _
                rw [hst]
              · unfold statusOf
                rw [hgb]
                rfl
              · unfold payoutVal
                rw [hgb, hgb0]
                rfl
            · left
              have hgb : getById (stepOp admins s (Op.confirmOp gid caller tid)) eid
                  = getById s eid := getById_of_updEscrow_ne hfid hesc heq
              exact ⟨statusOf_congr hgb, logCount_of_logs_eq hlogs eid, payoutVal_congr hgb⟩
        · exact step_master_of_eq
            (by show (confirm_cmd admins gid caller tid s).2 = s; rw [confirm_cmd_invalid ha hq hst]) hinv
    · exact step_master_of_eq
        (by show (confirm_cmd admins gid caller tid s).2 = s; rw [confirm_cmd_forbidden ha]) hinv
  | receivedOp gid caller tid =>
    rcases hq : getScoped s tid gid with _ | esc
    · exact step_master_of_eq
        (by show (received_cmd admins gid caller tid s).2 = s; rw [received_cmd_not_found hq]) hinv
    · by_cases hauth : buyerAuth admins caller esc
      · by_cases hst : esc.status = Status.CONFIRMED
        · obtain ⟨hmem, hid, hgid⟩ := getScoped_spec hq
          have hfid : ∀ e : Escrow, ({ e with status := Status.RECEIVED } : Escrow).id = e.id :=
            fun e => rfl
          have hs' : stepOp admins s (Op.receivedOp gid caller tid)
              = { s with
                    escrows := updEscrow s.escrows esc.id
                      (fun e => { e with status := Status.RECEIVED }) } := by
            show (received_cmd admins gid caller tid s).2 = _
            rw [received_cmd_success hq hauth hst]
          have hlogs : (stepOp admins s (Op.receivedOp gid caller tid)).logs = s.logs := by
            rw [hs']
          have hesc : (stepOp admins s (Op.receivedOp gid caller tid)).escrows
              = updEscrow s.escrows esc.id (fun e => { e with status := Status.RECEIVED }) := by
            rw [hs']
          have hpnone : esc.seller_payment_info = none := by
            by_contra hne
            have := h5 esc hmem hne
            rw [hst] at this
            rcases this with h' | h' | h' <;> exact Status.noConfusion h'
          refine ⟨?_, ?_, ?_⟩
          · rw [hs']
            exact storeInv_status_only hinv hmem (by decide) (Or.inl hpnone)
          · rw [hs']
          · intro eid
            by_cases heq : eid = esc.id
            · rw [heq]
              right; right; right; right; left
              have hgb0 : getById s esc.id = some esc := getById_of_mem hnd hmem
              have hgb : getById (stepOp admins s (Op.receivedOp gid caller tid)) esc.id
                  = some ({ esc with status := Status.RECEIVED }) :=
                getById_of_updEscrow_self hfid hesc hgb0
              refine ⟨⟨gid, caller, by rw [hid]⟩, ?_, ?_, logCount_of_logs_eq hlogs esc.id, ?_⟩
              · unfold statusOf
                rw [hgb0]
                show some esc.status = _
                rw [hst]
              · unfold statusOf
                rw [hgb]
                rfl
              · unfold payoutVal
                rw [hgb, hgb0]
                rfl
            · left
              have hgb : getById (stepOp admins s (Op.receivedOp gid caller tid)) eid
                  = getById s eid := getById_of_updEscrow_ne hfid hesc heq
              exact ⟨statusOf_congr hgb, logCount_of_logs_eq hlogs eid, payoutVal_congr hgb⟩
        · exact step_master_of_eq
            (by show (received_cmd admins gid caller tid s).2 = s; rw [received_cmd_invalid hq hauth hst]) hinv
      · exact step_master_of_eq
          (by show (received_cmd admins gid caller tid s).2 = s; rw [received_cmd_forbidden hq hauth]) hinv
  | paymentOp gid caller tid toks =>
    by_cases htok : toks = []
    · rw [htok]
      exact step_master_of_eq
        (by show (payment_cmd gid caller tid [] s).2 = s; rw [payment_cmd_usage rfl]) hinv
    · rcases hq : getScoped s tid gid with _ | esc
      · exact step_master_of_eq
          (by show (payment_cmd gid caller tid toks s).2 = s; rw [payment_cmd_not_found htok hq]) hinv
      · by_cases hauth : pyLower caller.username = pyLower esc.seller_username
        · by_cases hst : esc.status = Status.RECEIVED
          · obtain ⟨hmem, hid, hgid⟩ := getScoped_spec hq
            have hfid : ∀ e : Escrow,
                ({ e with seller_payment_info := some (pyStrip (pyJoinSpace toks)),
                          status := Status.PAYMENT_PROVIDED } : Escrow).id = e.id :=
              fun e => rfl
            have hs' : stepOp admins s (Op.paymentOp gid caller tid toks)
                = { s with
                      escrows := updEscrow s.escrows esc.id
                        (fun e => { e with
                                      seller_payment_info := some (pyStrip (pyJoinSpace toks)),
                                      status := Status.PAYMENT_PROVIDED }) } := by
              show (payment_cmd gid caller tid toks s).2 = _
              rw [payment_cmd_success htok hq hauth hst]
            have hlogs : (stepOp admins s (Op.paymentOp gid caller tid toks)).logs = s.logs := by
              rw [hs']
            have hesc : (stepOp admins s (Op.paymentOp gid caller tid toks)).escrows
                = updEscrow s.escrows esc.id
                    (fun e => { e with
                                  seller_payment_info := some (pyStrip (pyJoinSpace toks)),
                                  status := Status.PAYMENT_PROVIDED }) := by
              rw [hs']
            have hpnone : esc.seller_payment_info = none := by
              by_contra hne
              have := h5 esc hmem hne
              rw [hst] at this
              rcases this with h' | h' | h' <;> exact Status.noConfusion h'
            refine ⟨?_, ?_, ?_⟩
            · rw [hs']
              exact storeInv_payment hinv hmem (pyStrip (pyJoinSpace toks))
            · rw [hs']
            · intro eid
              by_cases heq : eid = esc.id
              · rw [heq]
                right; right; right; right; right; left
                have hgb0 : getById s esc.id = some esc := getById_of_mem hnd hmem
                have hgb : getById (stepOp admins s (Op.paymentOp gid caller tid toks)) esc.id
                    = some ({ esc with
                                seller_payment_info := some (pyStrip (pyJoinSpace toks)),
                                status := Status.PAYMENT_PROVIDED }) :=
                  getById_of_updEscrow_self hfid hesc hgb0
                refine ⟨⟨gid, caller, toks, by rw [hid], ?_⟩, ?_, ?_,
                  logCount_of_logs_eq hlogs esc.id, ?_⟩
                · unfold payoutVal
                  rw [hgb]
                  rfl
                · unfold statusOf
                  rw [hgb0]
                  show some esc.status = _
                  rw [hst]
                · unfold statusOf
                  rw [hgb]
                  rfl
                · unfold payoutVal
                  rw [hgb0]
                  show esc.seller_payment_info = none
                  rw [hpnone]
              · left
                have hgb : getById (stepOp admins s (Op.paymentOp gid caller tid toks)) eid
                    = getById s eid := getById_of_updEscrow_ne hfid hesc heq
                exact ⟨statusOf_congr hgb, logCount_of_logs_eq hlogs eid, payoutVal_congr hgb⟩
          · exact step_master_of_eq
              (by show (payment_cmd gid caller tid toks s).2 = s; rw [payment_cmd_invalid htok hq hauth hst]) hinv
        · exact step_master_of_eq
            (by show (payment_cmd gid caller tid toks s).2 = s; rw [payment_cmd_forbidden htok hq hauth]) hinv
  | completedOp gid caller tid =>
    by_cases ha : is_admin admins caller.id
    · rcases hq : getScoped s tid gid with _ | esc
      · exact step_master_of_eq
          (by show (completed_cmd admins gid caller tid s).2 = s; rw [completed_cmd_not_found ha hq]) hinv
      · by_cases hst : esc.status = Status.PAYMENT_PROVIDED ∨ esc.status = Status.RECEIVED
        · obtain ⟨hmem, hid, hgid⟩ := getScoped_spec hq
          have hfid : ∀ e : Escrow, ({ e with status := Status.COMPLETED } : Escrow).id = e.id :=
            fun e => rfl
          have hs' : stepOp admins s (Op.completedOp gid caller tid)
              = { s with
                    escrows := updEscrow s.escrows esc.id
                      (fun e => { e with status := Status.COMPLETED }) } := by
            show (completed_cmd admins gid caller tid s).2 = _
            rw [completed_cmd_success ha hq hst]
          have hlogs : (stepOp admins s (Op.completedOp gid caller tid)).logs = s.logs := by
            rw [hs']
          have hesc : (stepOp admins s (Op.completedOp gid caller tid)).escrows
              = updEscrow s.escrows esc.id (fun e => { e with status := Status.COMPLETED }) := by
            rw [hs']
          refine ⟨?_, ?_, ?_⟩
          · rw [hs']
            exact storeInv_status_only hinv hmem (by decide) (Or.inr (Or.inr (Or.inl rfl)))
          · rw [hs']
          · intro eid
            by_cases heq : eid = esc.id
            · rw [heq]
              right; right; right; right; right; right; left
              have hgb0 : getById s esc.id = some esc := getById_of_mem hnd hmem
              have hgb : getById (stepOp admins s (Op.completedOp gid caller tid)) esc.id
                  = some ({ esc with status := Status.COMPLETED }) :=
                getById_of_updEscrow_self hfid hesc hgb0
              refine ⟨⟨gid, caller, by rw [hid]⟩, ?_, ?_, logCount_of_logs_eq hlogs esc.id, ?_⟩
              · rcases hst with h' | h'
                · right
                  unfold statusOf
                  rw [hgb0]
                  show some esc.status = _
                  rw [h']
                · left
                  unfold statusOf
                  rw [hgb0]
                  show some esc.status = _
                  rw [h']
              · unfold statusOf
                rw [hgb]
                rfl
              · unfold payoutVal
                rw [hgb, hgb0]
                rfl
            · left
              have hgb : getById (stepOp admins s (Op.completedOp gid caller tid)) eid
                  = getById s eid := getById_of_updEscrow_ne hfid hesc heq
              exact ⟨statusOf_congr hgb, logCount_of_logs_eq hlogs eid, payoutVal_congr hgb⟩
        · have hst' : esc.status ≠ Status.PAYMENT_PROVIDED ∧ esc.status ≠ Status.RECEIVED := by
            tauto
          exact step_master_of_eq
            (by show (completed_cmd admins gid caller tid s).2 = s; rw [completed_cmd_invalid ha hq hst']) hinv
    · exact step_master_of_eq
        (by show (completed_cmd admins gid caller tid s).2 = s; rw [completed_cmd_forbidden ha]) hinv
  | disputeOp tid =>
    rcases hq : getById s tid with _ | esc
    · exact step_master_of_eq
        (by show (dispute_cmd tid s).2 = s; rw [dispute_cmd_not_found hq]) hinv
    · obtain ⟨hmem, hid⟩ := getById_spec hq
      have hfid : ∀ e : Escrow, ({ e with status := Status.DISPUTE } : Escrow).id = e.id :=
        fun e => rfl
      have hs' : stepOp admins s (Op.disputeOp tid)
          = { s with
                escrows := updEscrow s.escrows esc.id
                  (fun e => { e with status := Status.DISPUTE }) } := by
        show (dispute_cmd tid s).2 = _
        rw [dispute_cmd_success hq]
      have hlogs : (stepOp admins s (Op.disputeOp tid)).logs = s.logs := by
        rw [hs']
      have hesc : (stepOp admins s (Op.disputeOp tid)).escrows
          = updEscrow s.escrows esc.id (fun e => { e with status := Status.DISPUTE }) := by
        rw [hs']
      refine ⟨?_, ?_, ?_⟩
      · rw [hs']
        exact storeInv_status_only hinv hmem (by decide) (Or.inr (Or.inr (Or.inr rfl)))
      · rw [hs']
      · intro eid
        by_cases heq : eid = esc.id
        · rw [heq]
          right; right; right; right; right; right; right
          have hgb0 : getById s esc.id = some esc := getById_of_mem hnd hmem
          have hgb : getById (stepOp admins s (Op.disputeOp tid)) esc.id
              = some ({ esc with status := Status.DISPUTE }) :=
            getById_of_updEscrow_self hfid hesc hgb0
          refine ⟨by rw [hid], ⟨esc.status, ?_⟩, ?_, logCount_of_logs_eq hlogs esc.id, ?_⟩
          · unfold statusOf
            rw [hgb0]
            rfl
          · unfold statusOf
            rw [hgb]
            rfl
          · unfold payoutVal
            rw [hgb, hgb0]
            rfl
        · left
          have hgb : getById (stepOp admins s (Op.disputeOp tid)) eid
              = getById s eid := getById_of_updEscrow_ne hfid hesc heq
          exact ⟨statusOf_congr hgb, logCount_of_logs_eq hlogs eid, payoutVal_congr hgb⟩
  | statusOp tid =>
    exact step_master_of_eq rfl hinv

/-! ### Histories: invariants along whole runs -/

theorem runOps_append (admins : List Nat) (ops : List Op) (op : Op) :
    runOps admins (ops ++ [op]) = stepOp admins (runOps admins ops) op := by
  unfold runOps
  rw [List.foldl_append]
  rfl

theorem runOps_inv (admins : List Nat) (ops : List Op) : StoreInv (runOps admins ops) := by
  induction ops using List.reverseRecOn with
  | nil => exact storeInv_empty
  | append_singleton ops op ih =>
    rw [runOps_append]
    exact (step_master admins op _ ih).1

theorem runOps_take_succ (admins : List Nat) (ops : List Op) (n : Nat) :
    runOps admins (ops.take (n + 1)) = runOps admins (ops.take n)
    ∨ ∃ op, runOps admins (ops.take (n + 1))
        = stepOp admins (runOps admins (ops.take n)) op := by
  by_cases h : n < ops.length
  · right
    refine ⟨ops.get ⟨n, h⟩, ?_⟩
    rw [List.take_succ]
    have hg : ops[n]? = some (ops.get ⟨n, h⟩) := by
      rw [List.getElem?_eq_getElem h]
      rfl
    rw [hg]
    exact runOps_append admins (ops.take n) (ops.get ⟨n, h⟩)
  · left
    have hle : ops.length ≤ n := Nat.le_of_not_lt h
    rw [List.take_of_length_le hle, List.take_of_length_le (Nat.le_succ_of_le hle)]

theorem status_some_step {admins : List Nat} {op : Op} {s : Store} {eid : Nat} {st : Status}
    (hinv : StoreInv s) (h : statusOf s eid = some st) :
    ∃ st', statusOf (stepOp admins s op) eid = some st' := by
  rcases (step_master admins op s hinv).2.2 eid with
    ⟨h1, _, _⟩ | ⟨_, h0, h1, _, _, _⟩ | ⟨_, h0, h1, _, _⟩ | ⟨_, h0, h1, _, _⟩ |
    ⟨_, h0, h1, _, _⟩ | ⟨_, h0, h1, _, _⟩ | ⟨_, h0, h1, _, _⟩ | ⟨_, h0, h1, _, _⟩
  · exact ⟨st, by rw [h1, h]⟩
  · rw [h] at h0
    exact Option.noConfusion h0
  all_goals exact ⟨_, h1⟩

theorem payout_some_step {admins : List Nat} {op : Op} {s : Store} {eid : Nat} {v : String}
    (hinv : StoreInv s) (h : payoutVal s eid = some v) :
    payoutVal (stepOp admins s op) eid = some v := by
  rcases (step_master admins op s hinv).2.2 eid with
    ⟨_, _, h2⟩ | ⟨_, _, _, _, hp0, hp1⟩ | ⟨_, _, _, _, h2⟩ | ⟨_, _, _, _, h2⟩ |
    ⟨_, _, _, _, h2⟩ | ⟨_, _, _, _, hp0⟩ | ⟨_, _, _, _, h2⟩ | ⟨_, _, _, _, h2⟩
  · rw [h2, h]
  · rw [h] at hp0
    exact Option.noConfusion hp0
  · rw [h2, h]
  · rw [h2, h]
  · rw [h2, h]
  · rw [h] at hp0
    exact Option.noConfusion hp0
  · rw [h2, h]
  · rw [h2, h]

theorem payout_change_step {admins : List Nat} {op : Op} {s : Store} {eid : Nat}
    (hinv : StoreInv s)
    (h : payoutVal (stepOp admins s op) eid ≠ payoutVal s eid) :
    payoutVal s eid = none ∧ statusOf s eid = some Status.RECEIVED
    ∧ statusOf (stepOp admins s op) eid = some Status.PAYMENT_PROVIDED
    ∧ (∃ gid caller toks, op = Op.paymentOp gid caller eid toks
        ∧ payoutVal (stepOp admins s op) eid = some (pyStrip (pyJoinSpace toks))) := by
  rcases (step_master admins op s hinv).2.2 eid with
    ⟨_, _, h2⟩ | ⟨_, _, _, _, hp0, hp1⟩ | ⟨_, _, _, _, h2⟩ | ⟨_, _, _, _, h2⟩ |
    ⟨_, _, _, _, h2⟩ | ⟨hex, h0, h1, _, hp0⟩ | ⟨_, _, _, _, h2⟩ | ⟨_, _, _, _, h2⟩
  · exact absurd h2 h
  · rw [hp0, hp1] at h
    exact absurd rfl h
  · exact absurd h2 h
  · exact absurd h2 h
  · exact absurd h2 h
  · exact ⟨hp0, h0, h1, hex⟩
  · exact absurd h2 h
  · exact absurd h2 h

theorem status_some_run (admins : List Nat) (ops : List Op) (eid : Nat) {m n : Nat}
    (hmn : m ≤ n) {st : Status}
    (h : statusOf (runOps admins (ops.take m)) eid = some st) :
    ∃ st', statusOf (runOps admins (ops.take n)) eid = some st' := by
  induction n with
  | zero =>
    have hm : m = 0 := Nat.le_zero.mp hmn
    rw [hm] at h
    exact ⟨st, h⟩
  | succ k ih =>
    by_cases hc : m ≤ k
    · obtain ⟨st', hst'⟩ := ih hc
      rcases runOps_take_succ admins ops k with he | ⟨op, he⟩
      · rw [he]
        exact ⟨st', hst'⟩
      · rw [he]
        exact status_some_step (runOps_inv admins (ops.take k)) hst'
    · have : m = k + 1 := by omega
      rw [this] at h
      exact ⟨st, h⟩

theorem payout_some_run (admins : List Nat) (ops : List Op) (eid : Nat) {m n : Nat}
    (hmn : m ≤ n) {v : String}
    (h : payoutVal (runOps admins (ops.take m)) eid = some v) :
    payoutVal (runOps admins (ops.take n)) eid = some v := by
  induction n with
  | zero =>
    have hm : m = 0 := Nat.le_zero.mp hmn
    rw [hm] at h
    exact h
  | succ k ih =>
    by_cases hc : m ≤ k
    · have hk := ih hc
      rcases runOps_take_succ admins ops k with he | ⟨op, he⟩
      · rw [he]
        exact hk
      · rw [he]
        exact payout_some_step (runOps_inv admins (ops.take k)) hk
    · have : m = k + 1 := by omega
      rw [this] at h
      exact h

theorem ever_of_current {admins : List Nat} {ops : List Op} {eid : Nat}
    (h : ∃ st, statusOf (runOps admins ops) eid = some st ∧ paidPlus st) :
    everPaidPlus admins ops eid := by
  obtain ⟨st, hst, hpp⟩ := h
  exact ⟨ops.length, st, by rwa [List.take_length], hpp⟩

theorem ever_imp_some {admins : List Nat} {ops : List Op} {eid : Nat}
    (h : everPaidPlus admins ops eid) :
    ∃ st', statusOf (runOps admins ops) eid = some st' := by
  obtain ⟨n, st, hst, _⟩ := h
  have hm : statusOf (runOps admins (ops.take (min n ops.length))) eid = some st := by
    by_cases hn : n ≤ ops.length
    · rwa [Nat.min_eq_left hn]
    · have hlen : ops.length ≤ n := Nat.le_of_not_le hn
      rw [Nat.min_eq_right hlen, List.take_length]
      rwa [List.take_of_length_le hlen] at hst
  have := status_some_run admins ops eid (Nat.min_le_right n ops.length) hm
  rwa [List.take_length] at this

theorem everPaidPlus_concat (admins : List Nat) (ops : List Op) (op : Op) (eid : Nat) :
    everPaidPlus admins (ops ++ [op]) eid ↔
      everPaidPlus admins ops eid
      ∨ (∃ st, statusOf (runOps admins (ops ++ [op])) eid = some st ∧ paidPlus st) := by
  constructor
  · rintro ⟨n, st, hst, hpp⟩
    by_cases hn : n ≤ ops.length
    · left
      exact ⟨n, st, by rwa [List.take_append_of_le_length hn] at hst, hpp⟩
    · right
      have hlen : (ops ++ [op]).length ≤ n := by
        rw [List.length_append]
        simp only [List.length_singleton]
        omega
      rw [List.take_of_length_le hlen] at hst
      exact ⟨st, hst, hpp⟩
  · rintro (⟨n, st, hst, hpp⟩ | ⟨st, hst, hpp⟩)
    · refine ⟨min n ops.length, st, ?_, hpp⟩
      rw [List.take_append_of_le_length (Nat.min_le_right n ops.length)]
      by_cases hn : n ≤ ops.length
      · rwa [Nat.min_eq_left hn]
      · have hlen : ops.length ≤ n := Nat.le_of_not_le hn
        rw [Nat.min_eq_right hlen, List.take_length]
        rwa [List.take_of_length_le hlen] at hst
    · exact ⟨(ops ++ [op]).length, st, by rwa [List.take_length], hpp⟩

theorem run_log_inv (admins : List Nat) (ops : List Op) (eid : Nat) :
    logCount (runOps admins ops) eid ≤ 1
    ∧ (logCount (runOps admins ops) eid = 1 ↔ everPaidPlus admins ops eid)
    ∧ (everPaidPlus admins ops eid →
        ∃ st, statusOf (runOps admins ops) eid = some st
          ∧ (paidPlus st ∨ st = Status.DISPUTE)) := by
  induction ops using List.reverseRecOn with
  | nil =>
    have hz : logCount (runOps admins []) eid = 0 := rfl
    have hnone : statusOf (runOps admins []) eid = none := rfl
    refine ⟨by rw [hz]; omega, ?_, ?_⟩
    · constructor
      · intro h1
        rw [hz] at h1
        exact absurd h1 (by omega)
      · intro hev
        obtain ⟨st', hst'⟩ := ever_imp_some hev
        rw [hnone] at hst'
        exact Option.noConfusion hst'
    · intro hev
      obtain ⟨st', hst'⟩ := ever_imp_some hev
      rw [hnone] at hst'
      exact Option.noConfusion hst'
  | append_singleton ops op ih =>
    obtain ⟨ih1, ih2, ih3⟩ := ih
    have hinv := runOps_inv admins ops
    have hcat := everPaidPlus_concat admins ops op eid
    have hrw := runOps_append admins ops op
    rcases (step_master admins op (runOps admins ops) hinv).2.2 eid with
      ⟨h1, h2, h3⟩ | ⟨hex, h0, h1, h2, hp0, hp1⟩ | ⟨hex, h0, h1, h2, h3⟩ | ⟨hex, h0, h1, h2, h3⟩ |
      ⟨hex, h0, h1, h2, h3⟩ | ⟨hex, h0, h1, h2, hp0⟩ | ⟨hex, h0, h1, h2, h3⟩ |
      ⟨hex, ⟨st0, h0⟩, h1, h2, h3⟩
    · have hlog : logCount (runOps admins (ops ++ [op])) eid
          = logCount (runOps admins ops) eid := by
        rw [hrw]
        exact h2
      have hevif : everPaidPlus admins (ops ++ [op]) eid ↔ everPaidPlus admins ops eid := by
        rw [hcat]
        constructor
        · rintro (hev | ⟨st, hst, hpp⟩)
          · exact hev
          · apply ever_of_current
            rw [hrw, h1] at hst
            exact ⟨st, hst, hpp⟩
        · exact Or.inl
      refine ⟨by rw [hlog]; exact ih1, by rw [hlog, hevif]; exact ih2, ?_⟩
      intro hev
      obtain ⟨st, hst, hd⟩ := ih3 (hevif.mp hev)
      refine ⟨st, ?_, hd⟩
      rw [hrw, h1]
      exact hst
    · have hnev : ¬ everPaidPlus admins ops eid := by
        intro hev
        obtain ⟨st', hst'⟩ := ever_imp_some hev
        rw [h0] at hst'
        exact Option.noConfusion hst'
      have hlog0 : logCount (runOps admins ops) eid = 0 := by
        have hne1 : logCount (runOps admins ops) eid ≠ 1 := fun h => hnev (ih2.mp h)
        omega
      have hnev' : ¬ everPaidPlus admins (ops ++ [op]) eid := by
        rw [hcat]
        rintro (hev | ⟨st, hst, hpp⟩)
        · exact hnev hev
        · rw [hrw, h1] at hst
          have hsti : st = Status.INIT := (Option.some.inj hst).symm
          rw [hsti] at hpp
          exact absurd hpp (by decide)
      have hlog' : logCount (runOps admins (ops ++ [op])) eid = 0 := by
        rw [hrw, h2, hlog0]
      refine ⟨by rw [hlog']; omega, ?_, fun hev => absurd hev hnev'⟩
      constructor
      · intro h
        rw [hlog'] at h
        exact absurd h (by omega)
      · intro hev
        exact absurd hev hnev'
    · have hnev : ¬ everPaidPlus admins ops eid := by
        intro hev
        obtain ⟨st, hst, hd⟩ := ih3 hev
        rw [h0] at hst
        have hsti : st = Status.INIT := (Option.some.inj hst).symm
        rw [hsti] at hd
        rcases hd with hpp | hdd
        · exact absurd hpp (by decide)
        · exact Status.noConfusion hdd
      have hlog0 : logCount (runOps admins ops) eid = 0 := by
        have hne1 : logCount (runOps admins ops) eid ≠ 1 := fun h => hnev (ih2.mp h)
        omega
      have hlog' : logCount (runOps admins (ops ++ [op])) eid = 1 := by
        rw [hrw, h2, hlog0]
      have hev' : everPaidPlus admins (ops ++ [op]) eid := by
        rw [hcat]
        right
        refine ⟨Status.PAID, ?_, by decide⟩
        rw [hrw]
        exact h1
      refine ⟨by rw [hlog'], by rw [hlog']; exact iff_of_true rfl hev', ?_⟩
      intro _
      refine ⟨Status.PAID, ?_, Or.inl (by decide)⟩
      rw [hrw]
      exact h1
    · have hever : everPaidPlus admins ops eid := ever_of_current ⟨_, h0, by decide⟩
      have hlog1 : logCount (runOps admins ops) eid = 1 := ih2.mpr hever
      have hlog' : logCount (runOps admins (ops ++ [op])) eid = 1 := by
        rw [hrw, h2, hlog1]
      have hev' : everPaidPlus admins (ops ++ [op]) eid := hcat.mpr (Or.inl hever)
      refine ⟨by rw [hlog'], by rw [hlog']; exact iff_of_true rfl hev', ?_⟩
      intro _
      refine ⟨Status.CONFIRMED, ?_, Or.inl (by decide)⟩
      rw [hrw]
      exact h1
    · have hever : everPaidPlus admins ops eid := ever_of_current ⟨_, h0, by decide⟩
      have hlog1 : logCount (runOps admins ops) eid = 1 := ih2.mpr hever
      have hlog' : logCount (runOps admins (ops ++ [op])) eid = 1 := by
        rw [hrw, h2, hlog1]
      have hev' : everPaidPlus admins (ops ++ [op]) eid := hcat.mpr (Or.inl hever)
      refine ⟨by rw [hlog'], by rw [hlog']; exact iff_of_true rfl hev', ?_⟩
      intro _
      refine ⟨Status.RECEIVED, ?_, Or.inl (by decide)⟩
      rw [hrw]
      exact h1
    · have hever : everPaidPlus admins ops eid := ever_of_current ⟨_, h0, by decide⟩
      have hlog1 : logCount (runOps admins ops) eid = 1 := ih2.mpr hever
      have hlog' : logCount (runOps admins (ops ++ [op])) eid = 1 := by
        rw [hrw, h2, hlog1]
      have hev' : everPaidPlus admins (ops ++ [op]) eid := hcat.mpr (Or.inl hever)
      refine ⟨by rw [hlog'], by rw [hlog']; exact iff_of_true rfl hev', ?_⟩
      intro _
      refine ⟨Status.PAYMENT_PROVIDED, ?_, Or.inl (by decide)⟩
      rw [hrw]
      exact h1
    · have hever : everPaidPlus admins ops eid := by
        rcases h0 with h0 | h0
        · exact ever_of_current ⟨_, h0, by decide⟩
        · exact ever_of_current ⟨_, h0, by decide⟩
      have hlog1 : logCount (runOps admins ops) eid = 1 := ih2.mpr hever
      have hlog' : logCount (runOps admins (ops ++ [op])) eid = 1 := by
        rw [hrw, h2, hlog1]
      have hev' : everPaidPlus admins (ops ++ [op]) eid := hcat.mpr (Or.inl hever)
      refine ⟨by rw [hlog'], by rw [hlog']; exact iff_of_true rfl hev', ?_⟩
      intro _
      refine ⟨Status.COMPLETED, ?_, Or.inl (by decide)⟩
      rw [hrw]
      exact h1
    · have hlog : logCount (runOps admins (ops ++ [op])) eid
          = logCount (runOps admins ops) eid := by
        rw [hrw]
        exact h2
      have hevif : everPaidPlus admins (ops ++ [op]) eid ↔ everPaidPlus admins ops eid := by
        rw [hcat]
        constructor
        · rintro (hev | ⟨st, hst, hpp⟩)
          · exact hev
          · rw [hrw, h1] at hst
            have hstd : st = Status.DISPUTE := (Option.some.inj hst).symm
            rw [hstd] at hpp
            exact absurd hpp (by decide)
        · exact Or.inl
      refine ⟨by rw [hlog]; exact ih1, by rw [hlog, hevif]; exact ih2, ?_⟩
      intro _
      refine ⟨Status.DISPUTE, ?_, Or.inr rfl⟩
      rw [hrw]
      exact h1

/-! ### Non-emptiness of the persisted payout info -/

theorem dropWhile_exists_of_exists {α : Type} {p : α → Bool} {l : List α}
    (h : ∃ c ∈ l, ¬ p c = true) : ∃ c ∈ l.dropWhile p, ¬ p c = true := by
  induction l with
  | nil =>
    obtain ⟨c, hc, _⟩ := h
    exact absurd hc (List.not_mem_nil c)
  | cons a t ih =>
    by_cases hp : p a = true
    · rw [List.dropWhile_cons_of_pos hp]
      obtain ⟨c, hc, hpc⟩ := h
      rcases List.mem_cons.mp hc with rfl | hct
      · exact absurd hp hpc
      · exact ih ⟨c, hct, hpc⟩
    · rw [List.dropWhile_cons_of_neg hp]
      exact ⟨a, List.mem_cons_self a t, hp⟩

theorem pyStrip_ne_empty {t : String}
    (h : ∃ c ∈ t.data, ¬ c.isWhitespace = true) : pyStrip t ≠ "" := by
  unfold pyStrip
  intro hcon
  have hnil : (((t.data.dropWhile Char.isWhitespace).reverse.dropWhile
      Char.isWhitespace).reverse) = [] := congrArg String.data hcon
  have h1 := dropWhile_exists_of_exists h
  have h2 : ∃ c ∈ (t.data.dropWhile Char.isWhitespace).reverse, ¬ c.isWhitespace = true := by
    obtain ⟨c, hc, hpc⟩ := h1
    exact ⟨c, List.mem_reverse.mpr hc, hpc⟩
  have h3 := dropWhile_exists_of_exists h2
  obtain ⟨c, hc, _⟩ := h3
  have : c ∈ (((t.data.dropWhile Char.isWhitespace).reverse.dropWhile
      Char.isWhitespace).reverse) := List.mem_reverse.mpr hc
  rw [hnil] at this
  exact absurd this (List.not_mem_nil c)

theorem pyJoin_mem_head {t : String} {ts : List String} {c : Char} (hc : c ∈ t.data) :
    c ∈ (pyJoinSpace (t :: ts)).data := by
  cases ts with
  | nil => exact hc
  | cons u us =>
    show c ∈ (t ++ " " ++ pyJoinSpace (u :: us)).data
    rw [String.data_append, String.data_append]
    exact List.mem_append_left _ (List.mem_append_left _ hc)

/-- Validity of transport-layer command tokens: Telegram's argument
splitter produces non-empty whitespace-free tokens. -/
def validToken (t : String) : Prop :=
  t ≠ "" ∧ ∀ c ∈ t.data, ¬ c.isWhitespace = true

instance (t : String) : Decidable (validToken t) := by
  unfold validToken
  infer_instance

theorem payment_info_ne_empty {toks : List String} (hne : toks ≠ [])
    (hval : ∀ t ∈ toks, validToken t) :
    pyStrip (pyJoinSpace toks) ≠ "" := by
  cases toks with
  | nil => exact absurd rfl hne
  | cons t ts =>
    obtain ⟨hte, htc⟩ := hval t (List.mem_cons_self t ts)
    cases ht : t.data with
    | nil => exact absurd (String.ext (ht.trans rfl)) hte
    | cons c cs =>
      have hcd : c ∈ t.data := by
        rw [ht]
        exact List.mem_cons_self c cs
      exact pyStrip_ne_empty ⟨c, pyJoin_mem_head hcd, htc c hcd⟩

/-! ### Racing report-payment calls -/

/-- Run one `/paid` invocation per caller, in arrival order, collecting
the outcome each caller observes.  The bot's dispatcher processes updates
one at a time and `paid_cmd` contains no await point between its lookup
and its commits, so every concurrent schedule is one of these arrival
orders. -/
def runPaidAll (admins : List Nat) (gid : String) (eid : Nat) (s : Store) :
    List User → List Outcome × Store
  | [] => ([], s)
  | c :: cs =>
    let r := paid_cmd admins gid c eid s
    let rest := runPaidAll admins gid eid r.2 cs
    (r.1 :: rest.1, rest.2)

theorem runPaidAll_paid_state {admins : List Nat} {gid : String} {eid : Nat} {s : Store}
    {esc : Escrow} {cs : List User} (hq : getScoped s eid gid = some esc)
    (hst : esc.status = Status.PAID)
    (hauth : ∀ c ∈ cs, buyerAuth admins c esc) :
    runPaidAll admins gid eid s cs
      = (cs.map (fun _ => Outcome.InvalidState Status.PAID), s) := by
  induction cs with
  | nil => rfl
  | cons c cs ih =>
    have hr : paid_cmd admins gid c eid s = (Outcome.InvalidState esc.status, s) :=
      paid_cmd_invalid hq (hauth c (List.mem_cons_self c cs)) (by rw [hst]; decide)
    show (let r := paid_cmd admins gid c eid s
          let rest := runPaidAll admins gid eid r.2 cs
          (r.1 :: rest.1, rest.2)) = _
    rw [hr]
    have ih' := ih (fun u hu => hauth u (List.mem_cons_of_mem c hu))
    simp only [List.map_cons]
    rw [ih']
    rw [hst]

/-! ### Scoped lookups through updates -/

theorem getScoped_of_updEscrow {s s' : Store} {tid : Nat} {f : Escrow → Escrow}
    (hf : ∀ e, (f e).id = e.id) (hg : ∀ e, (f e).group_id = e.group_id)
    (h : s'.escrows = updEscrow s.escrows tid f) (eid : Nat) (gid : String) :
    getScoped s' eid gid
      = (getScoped s eid gid).map (fun e => if e.id = tid then f e else e) := by
  unfold getScoped
  rw [h]
  unfold updEscrow
  rw [List.find?_map]
  have hp : ((fun e => e.id == eid && e.group_id == gid) ∘ fun e => if e.id = tid then f e else e)
      = (fun e => e.id == eid && e.group_id == gid) := by
    funext e
    by_cases hc : e.id = tid <;> simp [hc, hf, hg]
  rw [hp]

theorem getScoped_map {s : Store} {h : Escrow → Escrow}
    (hid : ∀ e, (h e).id = e.id) (hg : ∀ e, (h e).group_id = e.group_id)
    (eid : Nat) (gid : String) :
    getScoped { s with escrows := s.escrows.map h } eid gid
      = (getScoped s eid gid).map h := by
  unfold getScoped
  show (s.escrows.map h).find? _ = _
  rw [List.find?_map]
  have hp : ((fun e => e.id == eid && e.group_id == gid) ∘ h)
      = (fun e => e.id == eid && e.group_id == gid) := by
    funext e
    simp [hid, hg]
  rw [hp]

theorem dispute_sets_dispute {s : Store}
    (hnd : (s.escrows.map (fun e => e.id)).Nodup)
    {eid : Nat} {esc : Escrow} (hq : getById s eid = some esc) :
    statusOf (dispute_cmd eid s).2 eid = some Status.DISPUTE := by
  have hid : esc.id = eid := (getById_spec hq).2
  have hesc : (dispute_cmd eid s).2.escrows
      = updEscrow s.escrows esc.id (fun e => { e with status := Status.DISPUTE }) := by
    rw [dispute_cmd_success hq]
  have hq0 : getById s esc.id = some esc := by
    rw [hid]
    exact hq
  have hfid : ∀ e : Escrow, ({ e with status := Status.DISPUTE } : Escrow).id = e.id :=
    fun e => rfl
  have hgb : getById (dispute_cmd eid s).2 esc.id
      = some ({ esc with status := Status.DISPUTE }) :=
    getById_of_updEscrow_self hfid hesc hq0
  rw [hid] at hgb
  unfold statusOf
  rw [hgb]
  rfl

/-! ### Claims -/

instance (s : Store) : Decidable (StoreInv s) := by
  unfold StoreInv
  infer_instance

/-- The single `COMPLETED` escrow of the concrete store below. -/
def exEscrow1 : Escrow :=
  { id := 1, group_id := "g", creator_id := "7", buyer_username := "alice",
    buyer_id := "7", seller_username := "bob", seller_id := "",
    amount := ⟨12, 0⟩, currency := "USD", status := Status.COMPLETED,
    seller_payment_info := none }

/-- Concrete store with one `COMPLETED` escrow (and its audit log row),
used to exercise `/dispute` on a terminal state. -/
def exStore1 : Store :=
  { escrows := [exEscrow1],
    logs := [{ escrow_id := 1, group_id := "g", buyer_username := "alice",
               seller_username := "bob", amount := ⟨12, 0⟩, currency := "USD" }],
    next_id := 2 }

/-- C1, counterexample: the claim says no engine operation (dispute
included) changes the status of a `COMPLETED` escrow, but `dispute_cmd`
performs no status check at all: on a `COMPLETED` escrow it succeeds and
moves the status to `DISPUTE`. -/
theorem C1_counterexample :
    statusOf exStore1 1 = some Status.COMPLETED
    ∧ (dispute_cmd 1 exStore1).1 = Outcome.Success
    ∧ statusOf (dispute_cmd 1 exStore1).2 1 = some Status.DISPUTE := by
  decide

/-- C1, amended: for an escrow whose status is `COMPLETED` or `DISPUTE`,
none of report-payment, confirm-payment, confirm-receipt,
submit-payout-info, mark-complete (on any target id) nor a dispute aimed
at a different escrow changes its status; dispute aimed at it
unconditionally sets `DISPUTE` (so it changes `COMPLETED` to `DISPUTE`
and leaves `DISPUTE` fixed). -/
theorem C1_terminal_amended (admins : List Nat) (op : Op) (s : Store) (eid : Nat)
    (st : Status) (hinv : StoreInv s) (hst : statusOf s eid = some st)
    (hterm : st = Status.COMPLETED ∨ st = Status.DISPUTE) :
    ((∀ e', op ≠ Op.disputeOp e') → statusOf (stepOp admins s op) eid = some st)
    ∧ (∀ eid', eid' ≠ eid → statusOf (stepOp admins s (Op.disputeOp eid')) eid = some st)
    ∧ statusOf (stepOp admins s (Op.disputeOp eid)) eid = some Status.DISPUTE := by
  refine ⟨?_, ?_, ?_⟩
  · intro hnd
    rcases (step_master admins op s hinv).2.2 eid with
      ⟨h1, _, _⟩ | ⟨_, h0, _, _, _, _⟩ | ⟨_, h0, _, _, _⟩ | ⟨_, h0, _, _, _⟩ |
      ⟨_, h0, _, _, _⟩ | ⟨_, h0, _, _, _⟩ | ⟨_, h0, _, _, _⟩ | ⟨hop, _, _, _, _⟩
    · rw [h1, hst]
    · rw [hst] at h0
      exact Option.noConfusion h0
    · rw [hst] at h0
      have hx : st = Status.INIT := Option.some.inj h0
      rw [hx] at hterm
      rcases hterm with h | h <;> exact Status.noConfusion h
    · rw [hst] at h0
      have hx : st = Status.PAID := Option.some.inj h0
      rw [hx] at hterm
      rcases hterm with h | h <;> exact Status.noConfusion h
    · rw [hst] at h0
      have hx : st = Status.CONFIRMED := Option.some.inj h0
      rw [hx] at hterm
      rcases hterm with h | h <;> exact Status.noConfusion h
    · rw [hst] at h0
      have hx : st = Status.RECEIVED := Option.some.inj h0
      rw [hx] at hterm
      rcases hterm with h | h <;> exact Status.noConfusion h
    · rcases h0 with h0 | h0 <;> rw [hst] at h0
      · have hx : st = Status.RECEIVED := Option.some.inj h0
        rw [hx] at hterm
        rcases hterm with h | h <;> exact Status.noConfusion h
      · have hx : st = Status.PAYMENT_PROVIDED := Option.some.inj h0
        rw [hx] at hterm
        rcases hterm with h | h <;> exact Status.noConfusion h
    · exact absurd hop (hnd eid)
  · intro eid' hne
    rcases (step_master admins (Op.disputeOp eid') s hinv).2.2 eid with
      ⟨h1, _, _⟩ | ⟨⟨g, cr, b, sl, a, c, hop⟩, _, _, _, _, _⟩ | ⟨⟨g, cl, hop⟩, _, _, _, _⟩ |
      ⟨⟨g, cl, hop⟩, _, _, _, _⟩ | ⟨⟨g, cl, hop⟩, _, _, _, _⟩ |
      ⟨⟨g, cl, tk, hop, _⟩, _, _, _, _⟩ | ⟨⟨g, cl, hop⟩, _, _, _, _⟩ | ⟨hop, _, _, _, _⟩
    · rw [h1, hst]
    all_goals first
      | exact absurd hop (by intro hc; exact Op.noConfusion hc)
      | (exact absurd (Op.disputeOp.inj hop) hne)
  · cases hq : getById s eid with
    | none =>
      unfold statusOf at hst
      rw [hq] at hst
      exact Option.noConfusion hst
    | some esc =>
      show statusOf (dispute_cmd eid s).2 eid = some Status.DISPUTE
      exact dispute_sets_dispute hinv.2.1 hq

/-- C1, witness: in the concrete `COMPLETED` store, `/paid` leaves the
status `COMPLETED` and `/dispute` moves it to `DISPUTE`. -/
theorem C1_witness :
    statusOf (stepOp [9] exStore1 (Op.paidOp "g" ⟨7, "alice"⟩ 1)) 1 = some Status.COMPLETED
    ∧ statusOf (stepOp [9] exStore1 (Op.disputeOp 1)) 1 = some Status.DISPUTE := by
  have h := C1_terminal_amended [9] (Op.paidOp "g" ⟨7, "alice"⟩ 1) exStore1 1
    Status.COMPLETED (by decide) (by decide) (Or.inl rfl)
  refine ⟨h.1 ?_, h.2.2⟩
  intro e' hc
  exact Op.noConfusion hc

/-- C3: `/paid` checks, in order: scoped lookup (`NotFound`), designated
buyer by case-insensitive handle or admin (`Forbidden`, store unchanged —
in particular an escrow in `INIT` stays in `INIT`), current status
(`InvalidState` when not `INIT`, store unchanged); when all pass it
succeeds and the escrow's status becomes `PAID`. -/
theorem C3_report_payment_errors (admins : List Nat) (gid : String) (caller : User)
    (eid : Nat) (s : Store) :
    (getScoped s eid gid = none →
      paid_cmd admins gid caller eid s = (Outcome.NotFound, s))
    ∧ (∀ esc, getScoped s eid gid = some esc → ¬ buyerAuth admins caller esc →
        paid_cmd admins gid caller eid s = (Outcome.Forbidden, s))
    ∧ (∀ esc, getScoped s eid gid = some esc → buyerAuth admins caller esc →
        esc.status ≠ Status.INIT →
        paid_cmd admins gid caller eid s = (Outcome.InvalidState esc.status, s))
    ∧ (∀ esc, getScoped s eid gid = some esc → buyerAuth admins caller esc →
        esc.status = Status.INIT →
        (paid_cmd admins gid caller eid s).1 = Outcome.Success
        ∧ ((s.escrows.map (fun e => e.id)).Nodup →
            statusOf (paid_cmd admins gid caller eid s).2 eid = some Status.PAID)) := by
  refine ⟨paid_cmd_not_found, fun esc hq hauth => paid_cmd_forbidden hq hauth,
    fun esc hq hauth hst => paid_cmd_invalid hq hauth hst, fun esc hq hauth hst => ⟨?_, ?_⟩⟩
  · rw [paid_cmd_success hq hauth hst]
  · intro hnd
    obtain ⟨hmem, hid, _⟩ := getScoped_spec hq
    have hfid : ∀ e : Escrow, ({ e with status := Status.PAID } : Escrow).id = e.id :=
      fun e => rfl
    have hesc : (paid_cmd admins gid caller eid s).2.escrows
        = updEscrow s.escrows esc.id (fun e => { e with status := Status.PAID }) := by
      rw [paid_cmd_success hq hauth hst]
    have hq0 : getById s esc.id = some esc := getById_of_mem hnd hmem
    have hgb := getById_of_updEscrow_self hfid hesc hq0
    rw [hid] at hgb
    unfold statusOf
    rw [hgb]
    rfl

/-- C3, witness: concrete instances of all four branches. -/
theorem C3_witness :
    paid_cmd [9] "g" ⟨7, "alice"⟩ 5 exStore1 = (Outcome.NotFound, exStore1)
    ∧ paid_cmd [9] "g" ⟨8, "mallory"⟩ 1 exStore1 = (Outcome.Forbidden, exStore1)
    ∧ paid_cmd [9] "g" ⟨7, "alice"⟩ 1 exStore1
        = (Outcome.InvalidState Status.COMPLETED, exStore1) := by
  have h := C3_report_payment_errors [9] "g" ⟨7, "alice"⟩ 5 exStore1
  have h2 := C3_report_payment_errors [9] "g" ⟨8, "mallory"⟩ 1 exStore1
  have h3 := C3_report_payment_errors [9] "g" ⟨7, "alice"⟩ 1 exStore1
  refine ⟨h.1 (by decide), ?_, ?_⟩
  · exact h2.2.1 exEscrow1 (by decide) (by decide)
  · exact h3.2.2.1 exEscrow1 (by decide) (by decide) (by decide)

/-- C4: `/confirm` rejects any non-admin with `Forbidden` before even
looking up the escrow (so in every state, `PAID` included, the store — and
hence every status — is unchanged); an admin calling while the status is
not `PAID` (e.g. still `INIT`) gets `InvalidState`, again with the store
unchanged. -/
theorem C4_confirm_payment_auth (admins : List Nat) (gid : String) (caller : User)
    (eid : Nat) (s : Store) :
    (¬ is_admin admins caller.id →
      confirm_cmd admins gid caller eid s = (Outcome.Forbidden, s))
    ∧ (∀ esc, is_admin admins caller.id → getScoped s eid gid = some esc →
        esc.status ≠ Status.PAID →
        confirm_cmd admins gid caller eid s = (Outcome.InvalidState esc.status, s)) :=
  ⟨confirm_cmd_forbidden, fun esc ha hq hst => confirm_cmd_invalid ha hq hst⟩

/-- A `PAID` escrow and an `INIT` escrow for the store below. -/
def exEscrow4a : Escrow :=
  { id := 1, group_id := "g", creator_id := "7", buyer_username := "alice",
    buyer_id := "7", seller_username := "bob", seller_id := "",
    amount := ⟨12, 0⟩, currency := "USD", status := Status.PAID,
    seller_payment_info := none }

def exEscrow4b : Escrow :=
  { id := 2, group_id := "g", creator_id := "7", buyer_username := "alice",
    buyer_id := "7", seller_username := "bob", seller_id := "",
    amount := ⟨1250, 2⟩, currency := "", status := Status.INIT,
    seller_payment_info := none }

/-- Concrete store with one `PAID` escrow and one `INIT` escrow. -/
def exStore4 : Store :=
  { escrows := [exEscrow4a, exEscrow4b],
    logs := [{ escrow_id := 1, group_id := "g", buyer_username := "alice",
               seller_username := "bob", amount := ⟨12, 0⟩, currency := "USD" }],
    next_id := 3 }

/-- C4, witness: a non-admin on the `PAID` escrow gets `Forbidden`;
an admin on the `INIT` escrow gets `InvalidState INIT`; both leave the
store unchanged. -/
theorem C4_witness :
    confirm_cmd [9] "g" ⟨7, "alice"⟩ 1 exStore4 = (Outcome.Forbidden, exStore4)
    ∧ confirm_cmd [9] "g" ⟨9, "adm"⟩ 2 exStore4
        = (Outcome.InvalidState Status.INIT, exStore4) := by
  have h1 := (C4_confirm_payment_auth [9] "g" ⟨7, "alice"⟩ 1 exStore4).1 (by decide)
  have h2 := (C4_confirm_payment_auth [9] "g" ⟨9, "adm"⟩ 2 exStore4).2
    exEscrow4b (by decide) (by decide) (by decide)
  exact ⟨h1, h2⟩

/-- C6, counterexample: the claim says a missing escrow yields `NotFound`
for every caller; but both `/confirm` and `/completed` test the admin
role first, so a non-admin caller on an empty store gets `Forbidden`,
not `NotFound`. -/
theorem C6_counterexample :
    getScoped emptyStore 1 "g" = none
    ∧ (confirm_cmd [] "g" ⟨1, "x"⟩ 1 emptyStore).1 = Outcome.Forbidden
    ∧ (confirm_cmd [] "g" ⟨1, "x"⟩ 1 emptyStore).1 ≠ Outcome.NotFound
    ∧ (completed_cmd [] "g" ⟨1, "x"⟩ 1 emptyStore).1 = Outcome.Forbidden
    ∧ (completed_cmd [] "g" ⟨1, "x"⟩ 1 emptyStore).1 ≠ Outcome.NotFound := by
  decide

/-- C6, amended: `/confirm` and `/completed` check the admin role
*before* the scoped lookup: a non-admin always gets `Forbidden`, even when
no escrow matches; only for admin callers does a missing scoped escrow
yield `NotFound`. -/
theorem C6_role_check_before_lookup (admins : List Nat) (gid : String) (caller : User)
    (eid : Nat) (s : Store) :
    (¬ is_admin admins caller.id →
      confirm_cmd admins gid caller eid s = (Outcome.Forbidden, s)
      ∧ completed_cmd admins gid caller eid s = (Outcome.Forbidden, s))
    ∧ (is_admin admins caller.id → getScoped s eid gid = none →
      confirm_cmd admins gid caller eid s = (Outcome.NotFound, s)
      ∧ completed_cmd admins gid caller eid s = (Outcome.NotFound, s)) :=
  ⟨fun ha => ⟨confirm_cmd_forbidden ha, completed_cmd_forbidden ha⟩,
   fun ha hq => ⟨confirm_cmd_not_found ha hq, completed_cmd_not_found ha hq⟩⟩

/-- C6, witness: concrete instances of both halves on the empty store. -/
theorem C6_witness :
    confirm_cmd [9] "g" ⟨1, "x"⟩ 1 emptyStore = (Outcome.Forbidden, emptyStore)
    ∧ completed_cmd [9] "g" ⟨1, "x"⟩ 1 emptyStore = (Outcome.Forbidden, emptyStore)
    ∧ confirm_cmd [9] "g" ⟨9, "adm"⟩ 1 emptyStore = (Outcome.NotFound, emptyStore)
    ∧ completed_cmd [9] "g" ⟨9, "adm"⟩ 1 emptyStore = (Outcome.NotFound, emptyStore) := by
  have h1 := (C6_role_check_before_lookup [9] "g" ⟨1, "x"⟩ 1 emptyStore).1 (by decide)
  have h2 := (C6_role_check_before_lookup [9] "g" ⟨9, "adm"⟩ 1 emptyStore).2 (by decide) (by decide)
  exact ⟨h1.1, h1.2, h2.1, h2.2⟩

/-- C2: along any history, each escrow id has at most one TransactionLog
row, and exactly one precisely when the escrow was ever at `PAID` or a
later lifecycle state (the linear states `PAID ... COMPLETED`; a direct
`INIT → DISPUTE` escape never logs); moreover, calling `/paid` twice in
immediate succession on an `INIT` escrow yields one success then one
`InvalidState`, with exactly one log row afterwards. -/
theorem C2_transaction_log_invariant (admins : List Nat) (ops : List Op) (eid : Nat) :
    logCount (runOps admins ops) eid ≤ 1
    ∧ (logCount (runOps admins ops) eid = 1 ↔ everPaidPlus admins ops eid)
    ∧ (∀ gid caller esc,
        getScoped (runOps admins ops) eid gid = some esc →
        esc.status = Status.INIT →
        buyerAuth admins caller esc →
        (paid_cmd admins gid caller eid (runOps admins ops)).1 = Outcome.Success
        ∧ (paid_cmd admins gid caller eid
            (paid_cmd admins gid caller eid (runOps admins ops)).2).1
            = Outcome.InvalidState Status.PAID
        ∧ logCount (paid_cmd admins gid caller eid
            (paid_cmd admins gid caller eid (runOps admins ops)).2).2 eid = 1) := by
  obtain ⟨hle, hiff, _⟩ := run_log_inv admins ops eid
  refine ⟨hle, hiff, ?_⟩
  intro gid caller esc hq hst hauth
  have hinv := runOps_inv admins ops
  obtain ⟨hmem, hid, hgid⟩ := getScoped_spec hq
  have hlog0 : logCount (runOps admins ops) eid = 0 := by
    have := hinv.2.2.2.1 esc hmem hst
    rw [hid] at this
    exact this
  have hsucc := paid_cmd_success hq hauth hst
  have hfid : ∀ e : Escrow, ({ e with status := Status.PAID } : Escrow).id = e.id :=
    fun e => rfl
  have hfg : ∀ e : Escrow, ({ e with status := Status.PAID } : Escrow).group_id = e.group_id :=
    fun e => rfl
  have hesc1 : (paid_cmd admins gid caller eid (runOps admins ops)).2.escrows
      = updEscrow (runOps admins ops).escrows esc.id
          (fun e => { e with status := Status.PAID }) := by
    rw [hsucc]
  have hlogs1 : (paid_cmd admins gid caller eid (runOps admins ops)).2.logs
      = (runOps admins ops).logs
        ++ [{ escrow_id := esc.id, group_id := esc.group_id,
              buyer_username := esc.buyer_username,
              seller_username := esc.seller_username,
              amount := esc.amount, currency := esc.currency }] := by
    rw [hsucc]
  have hscoped1 : getScoped (paid_cmd admins gid caller eid (runOps admins ops)).2 eid gid
      = some ({ esc with status := Status.PAID }) := by
    rw [getScoped_of_updEscrow hfid hfg hesc1 eid gid, hq]
    simp
  have hinval := paid_cmd_invalid hscoped1
    (show buyerAuth admins caller ({ esc with status := Status.PAID }) from hauth)
    (fun h => Status.noConfusion h)
  have hlog1 : logCount (paid_cmd admins gid caller eid (runOps admins ops)).2 eid = 1 := by
    rw [logCount_of_logs_append hlogs1 eid, hlog0, hid]
    simp
  refine ⟨by rw [hsucc], by rw [hinval], ?_⟩
  rw [hinval]
  exact hlog1

/-- C2, witness: create one escrow, then report payment twice. -/
theorem C2_witness :
    (paid_cmd [9] "g" ⟨7, "alice"⟩ 1
      (runOps [9] [Op.createOp "g" ⟨7, "alice"⟩ "alice" "bob" ⟨1250, 2⟩ "USD"])).1
      = Outcome.Success
    ∧ (paid_cmd [9] "g" ⟨7, "alice"⟩ 1
        (paid_cmd [9] "g" ⟨7, "alice"⟩ 1
          (runOps [9] [Op.createOp "g" ⟨7, "alice"⟩ "alice" "bob" ⟨1250, 2⟩ "USD"])).2).1
      = Outcome.InvalidState Status.PAID
    ∧ logCount (paid_cmd [9] "g" ⟨7, "alice"⟩ 1
        (paid_cmd [9] "g" ⟨7, "alice"⟩ 1
          (runOps [9] [Op.createOp "g" ⟨7, "alice"⟩ "alice" "bob" ⟨1250, 2⟩ "USD"])).2).2 1
      = 1 :=
  (C2_transaction_log_invariant [9]
      [Op.createOp "g" ⟨7, "alice"⟩ "alice" "bob" ⟨1250, 2⟩ "USD"] 1).2.2
    "g" ⟨7, "alice"⟩ (newEscrow "g" ⟨7, "alice"⟩ "alice" "bob" ⟨1250, 2⟩ "USD" 1)
    (by decide) (by decide) (by decide)

/-- Rewrite every escrow's stored durable ids (`buyer_id`, `seller_id`)
pointwise, leaving all other columns alone. -/
def setIds (s : Store) (f g : Escrow → String) : Store :=
  { s with escrows := s.escrows.map (fun e => { e with buyer_id := f e, seller_id := g e }) }

theorem paid_cmd_fst_setIds (admins : List Nat) (gid : String) (caller : User)
    (eid : Nat) (s : Store) (f g : Escrow → String) :
    (paid_cmd admins gid caller eid (setIds s f g)).1
      = (paid_cmd admins gid caller eid s).1 := by
  have hidp : ∀ e : Escrow,
      ({ e with buyer_id := f e, seller_id := g e } : Escrow).id = e.id := fun e => rfl
  have hgp : ∀ e : Escrow,
      ({ e with buyer_id := f e, seller_id := g e } : Escrow).group_id = e.group_id :=
    fun e => rfl
  have hscope : getScoped (setIds s f g) eid gid
      = (getScoped s eid gid).map (fun e => { e with buyer_id := f e, seller_id := g e }) :=
    getScoped_map hidp hgp eid gid
  cases hq : getScoped s eid gid with
  | none =>
    rw [paid_cmd_not_found (by rw [hscope, hq]; rfl), paid_cmd_not_found hq]
  | some esc =>
    have hq' : getScoped (setIds s f g) eid gid
        = some ({ esc with buyer_id := f esc, seller_id := g esc }) := by
      rw [hscope, hq]
      rfl
    by_cases hauth : buyerAuth admins caller esc
    · by_cases hst : esc.status = Status.INIT
      · rw [paid_cmd_success hq' (show buyerAuth admins caller _ from hauth) hst,
          paid_cmd_success hq hauth hst]
      · rw [paid_cmd_invalid hq' (show buyerAuth admins caller _ from hauth) hst,
          paid_cmd_invalid hq hauth hst]
    · rw [paid_cmd_forbidden hq' (show ¬ buyerAuth admins caller _ from hauth),
        paid_cmd_forbidden hq hauth]

theorem received_cmd_fst_setIds (admins : List Nat) (gid : String) (caller : User)
    (eid : Nat) (s : Store) (f g : Escrow → String) :
    (received_cmd admins gid caller eid (setIds s f g)).1
      = (received_cmd admins gid caller eid s).1 := by
  have hidp : ∀ e : Escrow,
      ({ e with buyer_id := f e, seller_id := g e } : Escrow).id = e.id := fun e => rfl
  have hgp : ∀ e : Escrow,
      ({ e with buyer_id := f e, seller_id := g e } : Escrow).group_id = e.group_id :=
    fun e => rfl
  have hscope : getScoped (setIds s f g) eid gid
      = (getScoped s eid gid).map (fun e => { e with buyer_id := f e, seller_id := g e }) :=
    getScoped_map hidp hgp eid gid
  cases hq : getScoped s eid gid with
  | none =>
    rw [received_cmd_not_found (by rw [hscope, hq]; rfl), received_cmd_not_found hq]
  | some esc =>
    have hq' : getScoped (setIds s f g) eid gid
        = some ({ esc with buyer_id := f esc, seller_id := g esc }) := by
      rw [hscope, hq]
      rfl
    by_cases hauth : buyerAuth admins caller esc
    · by_cases hst : esc.status = Status.CONFIRMED
      · rw [received_cmd_success hq' (show buyerAuth admins caller _ from hauth) hst,
          received_cmd_success hq hauth hst]
      · rw [received_cmd_invalid hq' (show buyerAuth admins caller _ from hauth) hst,
          received_cmd_invalid hq hauth hst]
    · rw [received_cmd_forbidden hq' (show ¬ buyerAuth admins caller _ from hauth),
        received_cmd_forbidden hq hauth]

theorem payment_cmd_fst_setIds (gid : String) (caller : User) (eid : Nat)
    (toks : List String) (s : Store) (f g : Escrow → String) :
    (payment_cmd gid caller eid toks (setIds s f g)).1
      = (payment_cmd gid caller eid toks s).1 := by
  by_cases ht : toks = []
  · rw [ht, payment_cmd_usage rfl, payment_cmd_usage rfl]
  · have hidp : ∀ e : Escrow,
        ({ e with buyer_id := f e, seller_id := g e } : Escrow).id = e.id := fun e => rfl
    have hgp : ∀ e : Escrow,
        ({ e with buyer_id := f e, seller_id := g e } : Escrow).group_id = e.group_id :=
      fun e => rfl
    have hscope : getScoped (setIds s f g) eid gid
        = (getScoped s eid gid).map (fun e => { e with buyer_id := f e, seller_id := g e }) :=
      getScoped_map hidp hgp eid gid
    cases hq : getScoped s eid gid with
    | none =>
      rw [payment_cmd_not_found ht (by rw [hscope, hq]; rfl), payment_cmd_not_found ht hq]
    | some esc =>
      have hq' : getScoped (setIds s f g) eid gid
          = some ({ esc with buyer_id := f esc, seller_id := g esc }) := by
        rw [hscope, hq]
        rfl
      by_cases hauth : pyLower caller.username = pyLower esc.seller_username
      · by_cases hst : esc.status = Status.RECEIVED
        · rw [payment_cmd_success ht hq' hauth hst, payment_cmd_success ht hq hauth hst]
        · rw [payment_cmd_invalid ht hq' hauth hst, payment_cmd_invalid ht hq hauth hst]
      · rw [payment_cmd_forbidden ht hq' hauth, payment_cmd_forbidden ht hq hauth]

theorem paid_cmd_forbidden_iff {admins : List Nat} {gid : String} {caller : User}
    {eid : Nat} {s : Store} {esc : Escrow} (hq : getScoped s eid gid = some esc) :
    ((paid_cmd admins gid caller eid s).1 = Outcome.Forbidden
      ↔ ¬ buyerAuth admins caller esc) := by
  by_cases hauth : buyerAuth admins caller esc
  · refine iff_of_false ?_ (not_not_intro hauth)
    by_cases hst : esc.status = Status.INIT
    · rw [paid_cmd_success hq hauth hst]
      exact fun h => Outcome.noConfusion h
    · rw [paid_cmd_invalid hq hauth hst]
      exact fun h => Outcome.noConfusion h
  · exact iff_of_true (by rw [paid_cmd_forbidden hq hauth]) hauth

theorem payment_cmd_forbidden_iff {gid : String} {caller : User} {eid : Nat}
    {toks : List String} {s : Store} {esc : Escrow} (ht : toks ≠ [])
    (hq : getScoped s eid gid = some esc) :
    ((payment_cmd gid caller eid toks s).1 = Outcome.Forbidden
      ↔ pyLower caller.username ≠ pyLower esc.seller_username) := by
  by_cases hauth : pyLower caller.username = pyLower esc.seller_username
  · refine iff_of_false ?_ (not_not_intro hauth)
    by_cases hst : esc.status = Status.RECEIVED
    · rw [payment_cmd_success ht hq hauth hst]
      exact fun h => Outcome.noConfusion h
    · rw [payment_cmd_invalid ht hq hauth hst]
      exact fun h => Outcome.noConfusion h
  · exact iff_of_true (by rw [payment_cmd_forbidden ht hq hauth]) hauth

/-- An `INIT` escrow whose stored `buyer_id` is the creator's account id
`"7"`, used to probe whose identity the authorization actually reads. -/
def exEscrow5 : Escrow :=
  { id := 1, group_id := "g", creator_id := "7", buyer_username := "alice",
    buyer_id := "7", seller_username := "bob", seller_id := "",
    amount := ⟨12, 0⟩, currency := "USD", status := Status.INIT,
    seller_payment_info := none }

def exStore5 : Store := { escrows := [exEscrow5], logs := [], next_id := 2 }

/-- C5, counterexample: authorization is NOT a function of the caller's
durable account id compared with the stored id.  Two callers with the
*same* account id 99 (matching no stored id — the stored `buyer_id` is
"7") get different outcomes on `/paid`, decided purely by the
case-insensitive display handle. -/
theorem C5_counterexample :
    exEscrow5.buyer_id = "7" ∧ exEscrow5.seller_id = ""
    ∧ (⟨99, "Alice"⟩ : User).id = (⟨99, "mallory"⟩ : User).id
    ∧ (paid_cmd [] "g" ⟨99, "Alice"⟩ 1 exStore5).1 = Outcome.Success
    ∧ (paid_cmd [] "g" ⟨99, "mallory"⟩ 1 exStore5).1 = Outcome.Forbidden := by
  decide

/-- C5, amended: in `/paid`, `/received` and `/payment` the stored
durable ids are never consulted — the observed outcome is invariant under
arbitrarily rewriting every escrow's `buyer_id` and `seller_id` — and the
role check is by case-insensitive display handle: `/paid` rejects
`Forbidden` exactly when the caller's lower-cased handle differs from the
stored buyer handle and the caller is not an admin, `/payment` exactly
when it differs from the stored seller handle (no admin bypass). -/
theorem C5_handle_based_auth (admins : List Nat) (gid : String) (caller : User)
    (eid : Nat) (toks : List String) (s : Store) (f g : Escrow → String) :
    ((paid_cmd admins gid caller eid (setIds s f g)).1
      = (paid_cmd admins gid caller eid s).1)
    ∧ ((received_cmd admins gid caller eid (setIds s f g)).1
        = (received_cmd admins gid caller eid s).1)
    ∧ ((payment_cmd gid caller eid toks (setIds s f g)).1
        = (payment_cmd gid caller eid toks s).1)
    ∧ (∀ esc, getScoped s eid gid = some esc →
        ((paid_cmd admins gid caller eid s).1 = Outcome.Forbidden
          ↔ ¬ buyerAuth admins caller esc))
    ∧ (∀ esc, toks ≠ [] → getScoped s eid gid = some esc →
        ((payment_cmd gid caller eid toks s).1 = Outcome.Forbidden
          ↔ pyLower caller.username ≠ pyLower esc.seller_username)) :=
  ⟨paid_cmd_fst_setIds admins gid caller eid s f g,
   received_cmd_fst_setIds admins gid caller eid s f g,
   payment_cmd_fst_setIds gid caller eid toks s f g,
   fun esc hq => paid_cmd_forbidden_iff hq,
   fun esc ht hq => payment_cmd_forbidden_iff ht hq⟩

/-- C5, witness: rewriting the stored ids leaves the outcome unchanged,
and the handle check concretely rejects a caller with a non-matching
handle. -/
theorem C5_witness :
    (paid_cmd [] "g" ⟨99, "Alice"⟩ 1
        (setIds exStore5 (fun _ => "999") (fun _ => "42"))).1
      = (paid_cmd [] "g" ⟨99, "Alice"⟩ 1 exStore5).1
    ∧ (paid_cmd [] "g" ⟨99, "mallory"⟩ 1 exStore5).1 = Outcome.Forbidden := by
  have h := C5_handle_based_auth [] "g" ⟨99, "Alice"⟩ 1 ["x"] exStore5
    (fun _ => "999") (fun _ => "42")
  have h2 := C5_handle_based_auth [] "g" ⟨99, "mallory"⟩ 1 ["x"] exStore5
    (fun _ => "999") (fun _ => "42")
  exact ⟨h.1, (h2.2.2.2.1 exEscrow5 (by decide)).mpr (by decide)⟩

/-- C7: `/payment` succeeds exactly when at least one info token was
supplied, the caller's handle matches the stored seller handle
case-insensitively (admin status plays no role in the criterion, so
admins get no bypass), and the status is `RECEIVED`; on success it
persists `" ".join(args[1:]).strip()` as the payout info and sets
`PAYMENT_PROVIDED`; with transport-valid tokens that persisted string is
non-empty; and along any history the payout info, once set, never changes
and can only ever be set on a `RECEIVED → PAYMENT_PROVIDED` step. -/
theorem C7_submit_payout_info (gid : String) (caller : User) (eid : Nat)
    (toks : List String) (s : Store) :
    (∀ esc, getScoped s eid gid = some esc →
      ((payment_cmd gid caller eid toks s).1 = Outcome.Success ↔
        (toks ≠ [] ∧ pyLower caller.username = pyLower esc.seller_username
          ∧ esc.status = Status.RECEIVED)))
    ∧ (∀ esc, toks ≠ [] → getScoped s eid gid = some esc →
        pyLower caller.username = pyLower esc.seller_username →
        esc.status = Status.RECEIVED →
        (s.escrows.map (fun e => e.id)).Nodup →
        statusOf (payment_cmd gid caller eid toks s).2 eid = some Status.PAYMENT_PROVIDED
        ∧ payoutVal (payment_cmd gid caller eid toks s).2 eid
            = some (pyStrip (pyJoinSpace toks)))
    ∧ ((∀ t ∈ toks, validToken t) → toks ≠ [] → pyStrip (pyJoinSpace toks) ≠ "")
    ∧ (∀ (admins : List Nat) (ops : List Op) (m n : Nat) (v : String), m ≤ n →
        payoutVal (runOps admins (ops.take m)) eid = some v →
        payoutVal (runOps admins (ops.take n)) eid = some v)
    ∧ (∀ (admins : List Nat) (ops : List Op) (n : Nat),
        payoutVal (runOps admins (ops.take (n + 1))) eid
          ≠ payoutVal (runOps admins (ops.take n)) eid →
        statusOf (runOps admins (ops.take n)) eid = some Status.RECEIVED
        ∧ statusOf (runOps admins (ops.take (n + 1))) eid = some Status.PAYMENT_PROVIDED
        ∧ payoutVal (runOps admins (ops.take n)) eid = none) := by
  refine ⟨?_, ?_, ?_, ?_, ?_⟩
  · intro esc hq
    constructor
    · intro hs
      by_cases ht : toks = []
      · rw [ht, payment_cmd_usage rfl] at hs
        exact Outcome.noConfusion hs
      · by_cases hauth : pyLower caller.username = pyLower esc.seller_username
        · by_cases hst : esc.status = Status.RECEIVED
          · exact ⟨ht, hauth, hst⟩
          · rw [payment_cmd_invalid ht hq hauth hst] at hs
            exact Outcome.noConfusion hs
        · rw [payment_cmd_forbidden ht hq hauth] at hs
          exact Outcome.noConfusion hs
    · rintro ⟨ht, hauth, hst⟩
      rw [payment_cmd_success ht hq hauth hst]
  · intro esc ht hq hauth hst hnd
    obtain ⟨hmem, hid, _⟩ := getScoped_spec hq
    have hfid : ∀ e : Escrow,
        ({ e with seller_payment_info := some (pyStrip (pyJoinSpace toks)),
                  status := Status.PAYMENT_PROVIDED } : Escrow).id = e.id := fun e => rfl
    have hesc : (payment_cmd gid caller eid toks s).2.escrows
        = updEscrow s.escrows esc.id
            (fun e => { e with seller_payment_info := some (pyStrip (pyJoinSpace toks)),
                               status := Status.PAYMENT_PROVIDED }) := by
      rw [payment_cmd_success ht hq hauth hst]
    have hq0 : getById s esc.id = some esc := getById_of_mem hnd hmem
    have hgb := getById_of_updEscrow_self hfid hesc hq0
    rw [hid] at hgb
    constructor
    · unfold statusOf
      rw [hgb]
      rfl
    · unfold payoutVal
      rw [hgb]
      rfl
  · exact fun hval hne => payment_info_ne_empty hne hval
  · exact fun admins ops m n v hmn h => payout_some_run admins ops eid hmn h
  · intro admins ops n hch
    rcases runOps_take_succ admins ops n with he | ⟨op, he⟩
    · rw [he] at hch
      exact absurd rfl hch
    · rw [he] at hch ⊢
      obtain ⟨hp0, h0, h1, _⟩ := payout_change_step (runOps_inv admins (ops.take n)) hch
      exact ⟨h0, h1, hp0⟩

/-- A `RECEIVED` escrow (with its log row) for the payout witness. -/
def exEscrow7 : Escrow :=
  { id := 1, group_id := "g", creator_id := "7", buyer_username := "alice",
    buyer_id := "7", seller_username := "bob", seller_id := "",
    amount := ⟨12, 0⟩, currency := "USD", status := Status.RECEIVED,
    seller_payment_info := none }

def exStore7 : Store :=
  { escrows := [exEscrow7],
    logs := [{ escrow_id := 1, group_id := "g", buyer_username := "alice",
               seller_username := "bob", amount := ⟨12, 0⟩, currency := "USD" }],
    next_id := 2 }

/-- C7, witness: the seller submits "0xABC" on a `RECEIVED` escrow. -/
theorem C7_witness :
    (payment_cmd "g" ⟨8, "bob"⟩ 1 ["0xABC"] exStore7).1 = Outcome.Success
    ∧ statusOf (payment_cmd "g" ⟨8, "bob"⟩ 1 ["0xABC"] exStore7).2 1
        = some Status.PAYMENT_PROVIDED
    ∧ payoutVal (payment_cmd "g" ⟨8, "bob"⟩ 1 ["0xABC"] exStore7).2 1
        = some (pyStrip (pyJoinSpace ["0xABC"]))
    ∧ pyStrip (pyJoinSpace ["0xABC"]) = "0xABC"
    ∧ pyStrip (pyJoinSpace ["0xABC"]) ≠ "" := by
  have h := C7_submit_payout_info "g" ⟨8, "bob"⟩ 1 ["0xABC"] exStore7
  have h2 := h.2.1 exEscrow7 (by decide) (by decide) (by decide) (by decide) (by decide)
  refine ⟨(h.1 exEscrow7 (by decide)).mpr ⟨by decide, by decide, by decide⟩,
    h2.1, h2.2, by decide, ?_⟩
  exact h.2.2.1 (by decide) (by decide)

/-- C8: `/escrow @buyer @seller <amount>` followed immediately by
`/status` on the assigned id returns a record in `INIT` carrying exactly
the parsed decimal amount and currency.  Amounts are Python `Decimal`s —
exact decimal arithmetic — so a token like "12.50" round-trips as the
exact value 1250/10², with no binary-floating-point drift. -/
theorem C8_create_summarize_round_trip (gid : String) (creator : User)
    (b sl : String) (amtToks : List String) (s : Store) (hinv : StoreInv s)
    (a : Dec) (c : String)
    (hp : parse_amount_token (pyStrip (pyJoinSpace amtToks)) = some (a, c)) :
    (escrow_cmd gid creator (b :: sl :: amtToks) s).1 = Outcome.Success
    ∧ ∃ esc, status_cmd s.next_id (escrow_cmd gid creator (b :: sl :: amtToks) s).2 = some esc
        ∧ esc.status = Status.INIT ∧ esc.amount = a ∧ esc.currency = c := by
  cases amtToks with
  | nil =>
    have hz : parse_amount_token (pyStrip (pyJoinSpace [])) = none := by decide
    rw [hz] at hp
    exact Option.noConfusion hp
  | cons a1 arest =>
    have hcmd : escrow_cmd gid creator (b :: sl :: a1 :: arest) s
        = (Outcome.Success,
           (escrow_create gid creator (lstripAt b) (lstripAt sl) a c s).2) := by
      simp only [escrow_cmd, hp]
    refine ⟨by rw [hcmd], ?_⟩
    refine ⟨newEscrow gid creator (lstripAt b) (lstripAt sl) a c s.next_id, ?_, rfl, rfl, rfl⟩
    rw [hcmd]
    show getById (escrow_create gid creator (lstripAt b) (lstripAt sl) a c s).2 s.next_id = _
    unfold getById
    show (s.escrows ++ [newEscrow gid creator (lstripAt b) (lstripAt sl) a c s.next_id]).find?
      (fun e => e.id == s.next_id) = _
    rw [List.find?_append]
    have hq' : s.escrows.find? (fun e => e.id == s.next_id) = none := by
      rw [List.find?_eq_none]
      intro e he
      have := hinv.1 e he
      simp only [beq_iff_eq]
      omega
    rw [hq']
    have hb : ((newEscrow gid creator (lstripAt b) (lstripAt sl) a c s.next_id).id
        == s.next_id) = true := by
      rw [beq_iff_eq]
      rfl
    simp [List.find?, hb]

/-- C8, witness: on the fresh database, creating with token "12.50"
stores exactly 1250/10² (which is the rational 25/2), currency empty, and
`/status 1` returns it in `INIT`. -/
theorem C8_witness :
    parse_amount_token (pyStrip (pyJoinSpace ["12.50"])) = some (⟨1250, 2⟩, "")
    ∧ (escrow_cmd "g" ⟨7, "carol"⟩ ["@alice", "@bob", "12.50"] emptyStore).1 = Outcome.Success
    ∧ (∃ esc, status_cmd 1
          (escrow_cmd "g" ⟨7, "carol"⟩ ["@alice", "@bob", "12.50"] emptyStore).2 = some esc
        ∧ esc.status = Status.INIT ∧ esc.amount = ⟨1250, 2⟩ ∧ esc.currency = "")
    ∧ Dec.val ⟨1250, 2⟩ = 25 / 2 := by
  have h := C8_create_summarize_round_trip "g" ⟨7, "carol"⟩ "@alice" "@bob" ["12.50"]
    emptyStore (by decide) ⟨1250, 2⟩ "" (by decide)
  exact ⟨by decide, h.1, h.2, by norm_num [Dec.val]⟩

/-- C9: the engine serializes `/paid` invocations (the bot dispatches one
update at a time and the lookup-check-commit region of `paid_cmd` has no
await point), so a concurrent schedule of N callers is an arrival order;
for every order of N ≥ 1 authorized callers racing the same
`INIT → PAID` transition, the first observes success, all N-1 others
observe `InvalidState`, and exactly one TransactionLog row exists
afterwards. -/
theorem C9_racing_report_payment (admins : List Nat) (gid : String) (eid : Nat)
    (s : Store) (esc : Escrow) (c : User) (cs : List User)
    (hinv : StoreInv s) (hq : getScoped s eid gid = some esc)
    (hst : esc.status = Status.INIT)
    (hauth : ∀ u ∈ (c :: cs), buyerAuth admins u esc) :
    (runPaidAll admins gid eid s (c :: cs)).1
      = Outcome.Success :: cs.map (fun _ => Outcome.InvalidState Status.PAID)
    ∧ logCount (runPaidAll admins gid eid s (c :: cs)).2 eid = 1 := by
  obtain ⟨hmem, hid, hgid⟩ := getScoped_spec hq
  have hlog0 : logCount s eid = 0 := by
    have := hinv.2.2.2.1 esc hmem hst
    rw [hid] at this
    exact this
  have hsucc := paid_cmd_success hq (hauth c (List.mem_cons_self c cs)) hst
  have hfid : ∀ e : Escrow, ({ e with status := Status.PAID } : Escrow).id = e.id :=
    fun e => rfl
  have hfg : ∀ e : Escrow, ({ e with status := Status.PAID } : Escrow).group_id = e.group_id :=
    fun e => rfl
  have hesc1 : (paid_cmd admins gid c eid s).2.escrows
      = updEscrow s.escrows esc.id (fun e => { e with status := Status.PAID }) := by
    rw [hsucc]
  have hlogs1 : (paid_cmd admins gid c eid s).2.logs
      = s.logs ++ [{ escrow_id := esc.id, group_id := esc.group_id,
                     buyer_username := esc.buyer_username,
                     seller_username := esc.seller_username,
                     amount := esc.amount, currency := esc.currency }] := by
    rw [hsucc]
  have hscoped1 : getScoped (paid_cmd admins gid c eid s).2 eid gid
      = some ({ esc with status := Status.PAID }) := by
    rw [getScoped_of_updEscrow hfid hfg hesc1 eid gid, hq]
    simp
  have hrest := runPaidAll_paid_state hscoped1 rfl
    (fun u hu => show buyerAuth admins u ({ esc with status := Status.PAID })
      from hauth u (List.mem_cons_of_mem c hu))
  have hrun : runPaidAll admins gid eid s (c :: cs)
      = (Outcome.Success :: cs.map (fun _ => Outcome.InvalidState Status.PAID),
         (paid_cmd admins gid c eid s).2) := by
    show ((paid_cmd admins gid c eid s).1
            :: (runPaidAll admins gid eid (paid_cmd admins gid c eid s).2 cs).1,
          (runPaidAll admins gid eid (paid_cmd admins gid c eid s).2 cs).2) = _
    rw [hrest, hsucc]
  refine ⟨by rw [hrun], ?_⟩
  rw [hrun]
  show logCount (paid_cmd admins gid c eid s).2 eid = 1
  rw [logCount_of_logs_append hlogs1 eid, hlog0, hid]
  simp

/-- C9, witness: alice and an admin race `/paid` on the same `INIT`
escrow, in both arrival orders collapsed to the quantified order; the
first succeeds, the second gets `InvalidState`, one log row exists. -/
theorem C9_witness :
    (runPaidAll [9] "g" 1 exStore5 [⟨7, "alice"⟩, ⟨9, "adm"⟩]).1
      = [Outcome.Success, Outcome.InvalidState Status.PAID]
    ∧ logCount (runPaidAll [9] "g" 1 exStore5 [⟨7, "alice"⟩, ⟨9, "adm"⟩]).2 1 = 1 :=
  C9_racing_report_payment [9] "g" 1 exStore5 exEscrow5 ⟨7, "alice"⟩ [⟨9, "adm"⟩]
    (by decide) (by decide) (by decide) (by decide)

theorem mem_fields_updEscrow {l : List Escrow} {tid : Nat} {f : Escrow → Escrow}
    (hfi : ∀ x, (f x).id = x.id) (hfb : ∀ x, (f x).buyer_id = x.buyer_id)
    (hfs : ∀ x, (f x).seller_id = x.seller_id) {e : Escrow} (he : e ∈ l) :
    ∃ e', e' ∈ updEscrow l tid f ∧ e'.id = e.id ∧ e'.buyer_id = e.buyer_id
      ∧ e'.seller_id = e.seller_id := by
  by_cases hc : e.id = tid
  · refine ⟨f e, ?_, hfi e, hfb e, hfs e⟩
    have := @updEscrow_mem l tid f e he
    rwa [if_pos hc] at this
  · refine ⟨e, ?_, rfl, rfl, rfl⟩
    have := @updEscrow_mem l tid f e he
    rwa [if_neg hc] at this

/-- Every operation leaves the escrow table unchanged, appends one fresh
row, or rewrites rows in a way that never touches `id`, `buyer_id` or
`seller_id`. -/
theorem stepOp_escrows_shape (admins : List Nat) (op : Op) (s : Store) :
    (stepOp admins s op).escrows = s.escrows
    ∨ (∃ e0, (stepOp admins s op).escrows = s.escrows ++ [e0])
    ∨ (∃ tid f, (∀ x : Escrow, (f x).id = x.id ∧ (f x).buyer_id = x.buyer_id
          ∧ (f x).seller_id = x.seller_id)
        ∧ (stepOp admins s op).escrows = updEscrow s.escrows tid f) := by
  cases op with
  | createOp gid creator bh sh a c =>
    exact Or.inr (Or.inl ⟨newEscrow gid creator bh sh a c s.next_id, rfl⟩)
  | paidOp gid caller tid =>
    rcases hq : getScoped s tid gid with _ | esc
    · left
      show (paid_cmd admins gid caller tid s).2.escrows = s.escrows
      rw [paid_cmd_not_found hq]
    · by_cases hauth : buyerAuth admins caller esc
      · by_cases hst : esc.status = Status.INIT
        · refine Or.inr (Or.inr ⟨esc.id, fun e => { e with status := Status.PAID },
            fun x => ⟨rfl, rfl, rfl⟩, ?_⟩)
          show (paid_cmd admins gid caller tid s).2.escrows = _
          rw [paid_cmd_success hq hauth hst]
        · left
          show (paid_cmd admins gid caller tid s).2.escrows = s.escrows
          rw [paid_cmd_invalid hq hauth hst]
      · left
        show (paid_cmd admins gid caller tid s).2.escrows = s.escrows
        rw [paid_cmd_forbidden hq hauth]
  | confirmOp gid caller tid =>
    by_cases ha : is_admin admins caller.id
    · rcases hq : getScoped s tid gid with _ | esc
      · left
        show (confirm_cmd admins gid caller tid s).2.escrows = s.escrows
        rw [confirm_cmd_not_found ha hq]
      · by_cases hst : esc.status = Status.PAID
        · refine Or.inr (Or.inr ⟨esc.id, fun e => { e with status := Status.CONFIRMED },
            fun x => ⟨rfl, rfl, rfl⟩, ?_⟩)
          show (confirm_cmd admins gid caller tid s).2.escrows = _
          rw [confirm_cmd_success ha hq hst]
        · left
          show (confirm_cmd admins gid caller tid s).2.escrows = s.escrows
          rw [confirm_cmd_invalid ha hq hst]
    · left
      show (confirm_cmd admins gid caller tid s).2.escrows = s.escrows
      rw [confirm_cmd_forbidden ha]
  | receivedOp gid caller tid =>
    rcases hq : getScoped s tid gid with _ | esc
    · left
      show (received_cmd admins gid caller tid s).2.escrows = s.escrows
      rw [received_cmd_not_found hq]
    · by_cases hauth : buyerAuth admins caller esc
      · by_cases hst : esc.status = Status.CONFIRMED
        · refine Or.inr (Or.inr ⟨esc.id, fun e => { e with status := Status.RECEIVED },
            fun x => ⟨rfl, rfl, rfl⟩, ?_⟩)
          show (received_cmd admins gid caller tid s).2.escrows = _
          rw [received_cmd_success hq hauth hst]
        · left
          show (received_cmd admins gid caller tid s).2.escrows = s.escrows
          rw [received_cmd_invalid hq hauth hst]
      · left
        show (received_cmd admins gid caller tid s).2.escrows = s.escrows
        rw [received_cmd_forbidden hq hauth]
  | paymentOp gid caller tid toks =>
    by_cases ht : toks = []
    · left
      rw [ht]
      show (payment_cmd gid caller tid [] s).2.escrows = s.escrows
      rw [payment_cmd_usage rfl]
    · rcases hq : getScoped s tid gid with _ | esc
      · left
        show (payment_cmd gid caller tid toks s).2.escrows = s.escrows
        rw [payment_cmd_not_found ht hq]
      · by_cases hauth : pyLower caller.username = pyLower esc.seller_username
        · by_cases hst : esc.status = Status.RECEIVED
          · refine Or.inr (Or.inr ⟨esc.id,
              fun e => { e with seller_payment_info := some (pyStrip (pyJoinSpace toks)),
                                status := Status.PAYMENT_PROVIDED },
              fun x => ⟨rfl, rfl, rfl⟩, ?_⟩)
            show (payment_cmd gid caller tid toks s).2.escrows = _
            rw [payment_cmd_success ht hq hauth hst]
          · left
            show (payment_cmd gid caller tid toks s).2.escrows = s.escrows
            rw [payment_cmd_invalid ht hq hauth hst]
        · left
          show (payment_cmd gid caller tid toks s).2.escrows = s.escrows
          rw [payment_cmd_forbidden ht hq hauth]
  | completedOp gid caller tid =>
    by_cases ha : is_admin admins caller.id
    · rcases hq : getScoped s tid gid with _ | esc
      · left
        show (completed_cmd admins gid caller tid s).2.escrows = s.escrows
        rw [completed_cmd_not_found ha hq]
      · by_cases hst : esc.status = Status.PAYMENT_PROVIDED ∨ esc.status = Status.RECEIVED
        · refine Or.inr (Or.inr ⟨esc.id, fun e => { e with status := Status.COMPLETED },
            fun x => ⟨rfl, rfl, rfl⟩, ?_⟩)
          show (completed_cmd admins gid caller tid s).2.escrows = _
          rw [completed_cmd_success ha hq hst]
        · left
          show (completed_cmd admins gid caller tid s).2.escrows = s.escrows
          rw [completed_cmd_invalid ha hq (by tauto)]
    · left
      show (completed_cmd admins gid caller tid s).2.escrows = s.escrows
      rw [completed_cmd_forbidden ha]
  | disputeOp tid =>
    rcases hq : getById s tid with _ | esc
    · left
      show (dispute_cmd tid s).2.escrows = s.escrows
      rw [dispute_cmd_not_found hq]
    · refine Or.inr (Or.inr ⟨esc.id, fun e => { e with status := Status.DISPUTE },
        fun x => ⟨rfl, rfl, rfl⟩, ?_⟩)
      show (dispute_cmd tid s).2.escrows = _
      rw [dispute_cmd_success hq]
  | statusOp tid =>
    exact Or.inl rfl

/-- C10: `/escrow` persists the *creator's* account id as `buyer_id`
(whatever buyer handle was named) and the empty string as `seller_id`;
and no operation ever modifies either field on any existing row (so
neither id is ever filled in or corrected later). -/
theorem C10_create_identity_fields :
    (∀ (gid : String) (creator : User) (args : List String) (s : Store) (e : Escrow),
      e ∈ (escrow_cmd gid creator args s).2.escrows →
      e ∈ s.escrows ∨ (e.buyer_id = toString creator.id ∧ e.seller_id = ""))
    ∧ (∀ (admins : List Nat) (op : Op) (s : Store) (e : Escrow), e ∈ s.escrows →
        ∃ e', e' ∈ (stepOp admins s op).escrows ∧ e'.id = e.id
          ∧ e'.buyer_id = e.buyer_id ∧ e'.seller_id = e.seller_id) := by
  constructor
  · intro gid creator args s e he
    rcases args with _ | ⟨b, args⟩
    · exact Or.inl he
    rcases args with _ | ⟨sl, args⟩
    · exact Or.inl he
    rcases args with _ | ⟨a1, arest⟩
    · exact Or.inl he
    cases hp : parse_amount_token (pyStrip (pyJoinSpace (a1 :: arest))) with
    | none =>
      have hcmd : escrow_cmd gid creator (b :: sl :: a1 :: arest) s
          = (Outcome.UsageError, s) := by
        simp only [escrow_cmd, hp]
      rw [hcmd] at he
      exact Or.inl he
    | some pr =>
      rcases pr with ⟨a, c⟩
      have hcmd : escrow_cmd gid creator (b :: sl :: a1 :: arest) s
          = (Outcome.Success,
             (escrow_create gid creator (lstripAt b) (lstripAt sl) a c s).2) := by
        simp only [escrow_cmd, hp]
      rw [hcmd] at he
      rcases List.mem_append.mp he with h' | h'
      · exact Or.inl h'
      · have hx := List.mem_singleton.mp h'
        right
        rw [hx]
        exact ⟨rfl, rfl⟩
  · intro admins op s e he
    rcases stepOp_escrows_shape admins op s with hsh | ⟨e0, hsh⟩ | ⟨tid, f, hf, hsh⟩
    · exact ⟨e, by rw [hsh]; exact he, rfl, rfl, rfl⟩
    · exact ⟨e, by rw [hsh]; exact List.mem_append_left _ he, rfl, rfl, rfl⟩
    · obtain ⟨e', hmem', h1, h2, h3⟩ := mem_fields_updEscrow (fun x => (hf x).1)
        (fun x => (hf x).2.1) (fun x => (hf x).2.2) he
      exact ⟨e', by rw [hsh]; exact hmem', h1, h2, h3⟩

/-- C10, witness: the escrow created by carol for buyer alice stores
carol's account id as `buyer_id` and "" as `seller_id`; a dispute on the
concrete store preserves both identity fields of its row. -/
theorem C10_witness :
    ((newEscrow "g" ⟨7, "carol"⟩ "alice" "bob" ⟨1250, 2⟩ "" 1).buyer_id = toString (7 : Nat)
      ∧ (newEscrow "g" ⟨7, "carol"⟩ "alice" "bob" ⟨1250, 2⟩ "" 1).seller_id = "")
    ∧ (∃ e', e' ∈ (stepOp [9] exStore5 (Op.disputeOp 1)).escrows ∧ e'.id = exEscrow5.id
        ∧ e'.buyer_id = exEscrow5.buyer_id ∧ e'.seller_id = exEscrow5.seller_id) := by
  refine ⟨?_, C10_create_identity_fields.2 [9] (Op.disputeOp 1) exStore5 exEscrow5 (by decide)⟩
  have h := C10_create_identity_fields.1 "g" ⟨7, "carol"⟩ ["@alice", "@bob", "12.50"] emptyStore
    (newEscrow "g" ⟨7, "carol"⟩ "alice" "bob" ⟨1250, 2⟩ "" 1) (by decide)
  rcases h with h | h
  · exact absurd h (by decide)
  · exact h
